import Mathlib

/-!
# aws-go-tool: collection and correlation of EC2 inventories

A shallow embedding of `lib/ec2/image.go` and `lib/ec2/snapshot.go`.

* Go slices are lists; `append(s, x)` is `s ++ [x]`.
* The SDK types (`ec2.Image`, `ec2.Instance`, `ec2.Snapshot`, `ec2.Volume`) keep the
  fields the repository reads. The SDK hands identifiers over as `*string`; every
  record returned by a `Describe*` call carries its identifier, so the model stores the
  string itself.
* A Go `error` is `Option Error`, `none` being `nil`.
-/

namespace AwsGoTool

/-- Go error values, identified by their message. -/
abbrev Error := String

/-- The part of `ec2.Tag` the repository reads. -/
structure Tag where
  Key : String
  Value : String
  deriving DecidableEq, Repr

/-- The part of `ec2.Image` the repository reads. -/
structure Image where
  ImageId : String
  Description : Option String
  CreationDate : String
  Tags : List Tag
  deriving DecidableEq, Repr

/-- The part of `ec2.Instance` the repository reads. -/
structure Instance where
  InstanceId : String
  ImageId : String
  deriving DecidableEq, Repr

/-- The part of `ec2.Snapshot` the repository reads. -/
structure Snapshot where
  SnapshotId : String
  VolumeId : String
  Description : String
  deriving DecidableEq, Repr

/-- The part of `ec2.Volume` the repository reads. -/
structure Volume where
  VolumeId : String
  deriving DecidableEq, Repr

/-- The record `ImageInfo` of `image.go`. -/
structure ImageInfo where
  Image : Image
  InUse : Bool
  Count : Nat
  AccountId : String
  Profile : String
  Region : String
  deriving DecidableEq, Repr

/-- The record `RegionImages` of `image.go`. -/
structure RegionImages where
  Profile : String
  AccountId : String
  Region : String
  Images : List Image
  deriving DecidableEq, Repr

abbrev AccountImages := List RegionImages
abbrev ProfilesImages := List AccountImages

/-- Modelled from the spec: the declaration of `RegionInstances` (instance.go) is not among
the sources. It is the `RegionResult` of section 3 for instances: account identifier, profile
name, region name and the ordered records; `CheckImages` reads `AccountId`, `Region` and
`Instances`. -/
structure RegionInstances where
  Profile : String
  AccountId : String
  Region : String
  Instances : List Instance
  deriving DecidableEq, Repr

abbrev AccountInstances := List RegionInstances
abbrev ProfilesInstances := List AccountInstances

/-- The record `RegionSnapshots` of `snapshot.go`. -/
structure RegionSnapshots where
  Profile : String
  AccountId : String
  Region : String
  Snapshots : List Snapshot
  Volumes : List Volume
  deriving DecidableEq, Repr

abbrev AccountSnapshots := List RegionSnapshots
abbrev ProfilesSnapshots := List AccountSnapshots

/-! ## CheckImages (image.go, lines 224-275) -/

/-- Lines 243-252: the scan of the whole instances fleet; `instances` starts `nil` and is
overwritten at every region result whose account and region equal the image's. -/
def CheckImages.instances (account region : String) (profilesInstances : ProfilesInstances) :
    List Instance :=
  profilesInstances.foldl
    (fun instances accountInstances =>
      accountInstances.foldl
        (fun instances regionInstances =>
          if account = regionInstances.AccountId ∧ region = regionInstances.Region then
            regionInstances.Instances
          else instances)
        instances)
    []

/-- Lines 255-263: the loop over `instances` keeping `found` and `count`. -/
def CheckImages.scan (imageId : String) (instances : List Instance) : Bool × Nat :=
  instances.foldl
    (fun st inst => if imageId = inst.ImageId then (true, st.2 + 1) else st)
    (false, 0)

/-- Lines 238-270: the body of the innermost loop, one image of one region result. -/
def CheckImages.image (profilesInstances : ProfilesInstances) (regionImages : RegionImages)
    (checkedImages : List ImageInfo) (image : Image) : List ImageInfo :=
  let profile := regionImages.Profile
  let account := regionImages.AccountId
  let region := regionImages.Region
  let imageId := image.ImageId
  let instances := CheckImages.instances account region profilesInstances
  let st := CheckImages.scan imageId instances
  let found := st.1
  let count := st.2
  if found then
    checkedImages ++ [{ Image := image, InUse := true, Count := count, Profile := profile,
                         AccountId := account, Region := region }]
  else
    checkedImages ++ [{ Image := image, InUse := false, Count := 0, Profile := profile,
                         AccountId := account, Region := region }]

/-- Lines 234-274: the three nested loops over the images fleet. -/
def CheckImages.loop (profilesImages : ProfilesImages) (profilesInstances : ProfilesInstances) :
    List ImageInfo :=
  profilesImages.foldl
    (fun checkedImages accountImages =>
      accountImages.foldl
        (fun checkedImages regionImages =>
          regionImages.Images.foldl (CheckImages.image profilesInstances regionImages)
            checkedImages)
        checkedImages)
    []

/-- The function `CheckImages`, given what `GetProfilesImages` and `GetProfilesInstances`
returned (lines 225 and 229). -/
def CheckImages (images : ProfilesImages × Option Error)
    (instances : ProfilesInstances × Option Error) : List ImageInfo × Option Error :=
  match images.2 with
  | some err => ([], some ("could not get profiles images: " ++ err))
  | none =>
    match instances.2 with
    | some err => ([], some ("could not get profiles instances: " ++ err))
    | none => (CheckImages.loop images.1 instances.1, none)

/-! ### Vocabulary of the correlation claims -/

/-- The images of a fleet in account-then-region-then-image order, each with the region
result that holds it. -/
def traversal (profilesImages : ProfilesImages) : List (RegionImages × Image) :=
  profilesImages.flatten.flatMap (fun regionImages => regionImages.Images.map (fun image => (regionImages, image)))

/-- The region results of the instances fleet in the scope `(account, region)`. -/
def inScope (account region : String) (profilesInstances : ProfilesInstances) :
    List RegionInstances :=
  profilesInstances.flatten.filter (fun r => decide (r.AccountId = account ∧ r.Region = region))

/-- How many of `instances` reference the image `imageId`. -/
def references (imageId : String) (instances : List Instance) : Nat :=
  instances.countP (fun i => decide (i.ImageId = imageId))

/-- The record the correlation produces for `image` of `regionImages`, written with the
vocabulary above: the instances looked at are those of the last region result in scope. -/
def checked (profilesInstances : ProfilesInstances) (regionImages : RegionImages)
    (image : Image) : ImageInfo :=
  let n := references image.ImageId
    (((inScope regionImages.AccountId regionImages.Region profilesInstances).getLast?.map
      (fun r => r.Instances)).getD [])
  { Image := image, InUse := decide (1 ≤ n), Count := n, Profile := regionImages.Profile,
    AccountId := regionImages.AccountId, Region := regionImages.Region }

/-! ## Paginated fetches (image.go lines 43-67, snapshot.go lines 31-54) -/

/-- The part of `ec2.DescribeImagesInput` the repository sets. -/
structure DescribeImagesInput where
  Owners : List String
  NextToken : Option String
  deriving DecidableEq, Repr

/-- The part of `ec2.DescribeImagesOutput` the repository reads. -/
structure DescribeImagesOutput where
  Images : List Image
  NextToken : Option String
  deriving DecidableEq, Repr

/-- The part of `ec2.DescribeSnapshotsInput` the repository sets. -/
structure DescribeSnapshotsInput where
  OwnerIds : List String
  NextToken : Option String
  deriving DecidableEq, Repr

/-- The part of `ec2.DescribeSnapshotsOutput` the repository reads. -/
structure DescribeSnapshotsOutput where
  Snapshots : List Snapshot
  NextToken : Option String
  deriving DecidableEq, Repr

/-- The client `ec2.New(sess)` as one fetch sees it: the provider's answer to the call
number `n` (counted from 0) made with the given input. The call number lets the provider
be stateful. -/
abbrev Client (ι ο : Type) := Nat → ι → Except Error ο

/-- What a fetch leaves behind when it returns: the receiver, the returned error and the
inputs of the calls it made, in order. -/
structure Fetch (ρ ι : Type) where
  receiver : ρ
  err : Option Error
  calls : List ι
  deriving DecidableEq, Repr

/-- The `for` loop of `GetRegionImages`, lines 49-64; `calls` holds the inputs already sent
and `fuel` bounds the number of rounds, `none` standing for a loop still running. -/
def GetRegionImages.loop (svc : Client DescribeImagesInput DescribeImagesOutput) :
    Nat → List DescribeImagesInput → DescribeImagesInput → RegionImages →
      Option (Fetch RegionImages DescribeImagesInput)
  | 0, _, _, _ => none
  | fuel + 1, calls, params, ri =>
    match svc calls.length params with
    | .error err => some { receiver := ri, err := some err, calls := calls ++ [params] }
    | .ok resp =>
      let ri := { ri with Images := resp.Images.foldl (fun images image => images ++ [image])
                                     ri.Images }
      match resp.NextToken with
      | some token =>
        GetRegionImages.loop svc fuel (calls ++ [params]) { params with NextToken := some token }
          ri
      | none => some { receiver := ri, err := none, calls := calls ++ [params] }

/-- The method `GetRegionImages` on the receiver `ri`. -/
def GetRegionImages (svc : Client DescribeImagesInput DescribeImagesOutput) (fuel : Nat)
    (ri : RegionImages) (accountId : String) : Option (Fetch RegionImages DescribeImagesInput) :=
  GetRegionImages.loop svc fuel [] { Owners := [accountId], NextToken := none } ri

/-- The `for` loop of `GetRegionSnapshots`, lines 37-51. -/
def GetRegionSnapshots.loop (svc : Client DescribeSnapshotsInput DescribeSnapshotsOutput) :
    Nat → List DescribeSnapshotsInput → DescribeSnapshotsInput → RegionSnapshots →
      Option (Fetch RegionSnapshots DescribeSnapshotsInput)
  | 0, _, _, _ => none
  | fuel + 1, calls, params, rs =>
    match svc calls.length params with
    | .error err => some { receiver := rs, err := some err, calls := calls ++ [params] }
    | .ok resp =>
      let rs := { rs with Snapshots := resp.Snapshots.foldl
                                          (fun snapshots snapshot => snapshots ++ [snapshot])
                                          rs.Snapshots }
      match resp.NextToken with
      | some token =>
        GetRegionSnapshots.loop svc fuel (calls ++ [params])
          { params with NextToken := some token } rs
      | none => some { receiver := rs, err := none, calls := calls ++ [params] }

/-- The method `GetRegionSnapshots` on the receiver `rs`. -/
def GetRegionSnapshots (svc : Client DescribeSnapshotsInput DescribeSnapshotsOutput)
    (fuel : Nat) (rs : RegionSnapshots) (accountId : String) :
    Option (Fetch RegionSnapshots DescribeSnapshotsInput) :=
  GetRegionSnapshots.loop svc fuel [] { OwnerIds := [accountId], NextToken := none } rs

/-! ### Vocabulary of the pagination claims -/

/-- The provider `svc` serves the pages `pages` from call number `n` on, the call being made
with `params`: every page but the last carries a continuation token, the last carries none,
and each call after the first is made with the token of the page before. -/
def ServesImages (svc : Client DescribeImagesInput DescribeImagesOutput) :
    Nat → DescribeImagesInput → List DescribeImagesOutput → Prop
  | _, _, [] => False
  | n, params, [page] => svc n params = .ok page ∧ page.NextToken = none
  | n, params, page :: next :: rest =>
    svc n params = .ok page ∧ page.NextToken.isSome = true
      ∧ ServesImages svc (n + 1) { params with NextToken := page.NextToken } (next :: rest)

/-- The provider `svc` serves the pages `pages`, each with a continuation token, and then
answers the next call with the error `err`. -/
def FailsImages (svc : Client DescribeImagesInput DescribeImagesOutput) (err : Error) :
    Nat → DescribeImagesInput → List DescribeImagesOutput → Prop
  | n, params, [] => svc n params = .error err
  | n, params, page :: rest =>
    svc n params = .ok page ∧ page.NextToken.isSome = true
      ∧ FailsImages svc err (n + 1) { params with NextToken := page.NextToken } rest

/-- The counterpart of `ServesImages` for snapshots. -/
def ServesSnapshots (svc : Client DescribeSnapshotsInput DescribeSnapshotsOutput) :
    Nat → DescribeSnapshotsInput → List DescribeSnapshotsOutput → Prop
  | _, _, [] => False
  | n, params, [page] => svc n params = .ok page ∧ page.NextToken = none
  | n, params, page :: next :: rest =>
    svc n params = .ok page ∧ page.NextToken.isSome = true
      ∧ ServesSnapshots svc (n + 1) { params with NextToken := page.NextToken } (next :: rest)

/-- The counterpart of `FailsImages` for snapshots. -/
def FailsSnapshots (svc : Client DescribeSnapshotsInput DescribeSnapshotsOutput) (err : Error) :
    Nat → DescribeSnapshotsInput → List DescribeSnapshotsOutput → Prop
  | n, params, [] => svc n params = .error err
  | n, params, page :: rest =>
    svc n params = .ok page ∧ page.NextToken.isSome = true
      ∧ FailsSnapshots svc err (n + 1) { params with NextToken := page.NextToken } rest

/-- The inputs of the calls that fetch `pages`: the first without a token, each later one
with the token of the page before. -/
def tokensSent (first : Option String) : List (Option String) → List (Option String)
  | [] => []
  | token :: rest => first :: tokensSent token rest

/-! ## Region workers and aggregators (image.go lines 70-139, snapshot.go lines 57-129) -/

/-- Modelled from the spec: the declaration of `utils.AccountInfo` is not among the sources.
An account has a profile name and a resolved account identifier (section 3); the credential
capability is the `Cloud` below. -/
structure AccountInfo where
  Profile : String
  AccountId : String
  deriving DecidableEq, Repr

/-- A region-scoped session handle (`*session.Session`). -/
structure Session where
  Profile : String
  Region : String
  deriving DecidableEq, Repr

/-- The external capabilities of section 6: identity resolution, session acquisition, the
provider's listing calls for the client of a session, and the repository's
`GetRegionVolumes` (volume.go, not among the sources), which returns a volume list and an
error. -/
structure Cloud where
  ResolveIdentity : AccountInfo → Except Error String
  GetSession : AccountInfo → String → Except Error Session
  DescribeImages : Session → Client DescribeImagesInput DescribeImagesOutput
  DescribeSnapshots : Session → Client DescribeSnapshotsInput DescribeSnapshotsOutput
  GetRegionVolumes : Session → List Volume × Option Error

/-- Modelled from the spec: `utils.AccountInfo.SetAccountId` is not among the sources. It
resolves the account's identifier through the identity capability
`resolve_identity(account) -> account_id | Error` and stores it in the account. -/
def AccountInfo.SetAccountId (cloud : Cloud) (account : AccountInfo) :
    Except Error AccountInfo :=
  match cloud.ResolveIdentity account with
  | .error err => .error err
  | .ok accountId => .ok { account with AccountId := accountId }

/-- The blocking join `wg.Wait()`: it comes back once every goroutine has ended; `none` is
a goroutine that never ends. -/
def waitAll {α : Type} : List (Option α) → Option (List α)
  | [] => some []
  | none :: _ => none
  | some a :: rest => (waitAll rest).map (fun ended => a :: ended)

/-- The fan-in of both tiers: every goroutine sends at most one value on the unbuffered
channel, the channel is closed after `wg.Wait()`, and the receiving loop appends what
arrives. The slice it builds holds the values sent, in some completion order. -/
def received {α : Type} (goroutines : List (Option (Option α))) (collected : List α) : Prop :=
  ∃ ended, waitAll goroutines = some ended ∧ collected.Perm ended.reduceOption

/-- Lines 78-91 of image.go, the goroutine of one region: `some (some info)` when it sends
`info` on `imagesChan`, `some none` when it returns without sending, `none` when its fetch
is still running after `fuel` rounds. -/
def GetAccountImages.worker (cloud : Cloud) (fuel : Nat) (account : AccountInfo)
    (region : String) : Option (Option RegionImages) :=
  let info : RegionImages :=
    { AccountId := account.AccountId, Region := region, Profile := account.Profile, Images := [] }
  match cloud.GetSession account region with
  | .error _ => some none
  | .ok sess =>
    match GetRegionImages (cloud.DescribeImages sess) fuel info account.AccountId with
    | none => none
    | some fetch =>
      match fetch.err with
      | some _ => some none
      | none => some (some fetch.receiver)

/-- The function `GetAccountImages` as a relation between its inputs and the values it can
return; `RegionMap` is `utils.RegionMap`, a list of code and region pairs. -/
def GetAccountImages (cloud : Cloud) (fuel : Nat) (RegionMap : List (String × String))
    (account : AccountInfo) (ret : AccountImages × Option Error) : Prop :=
  received (RegionMap.map (fun kv => GetAccountImages.worker cloud fuel account kv.2)) ret.1
    ∧ ret.2 = none

/-- Lines 114-126 of image.go, the goroutine of one account: `sent` is what it sends on
`profilesImagesChan`, `none` when it returns without sending. -/
def GetProfilesImages.worker (cloud : Cloud) (fuel : Nat) (RegionMap : List (String × String))
    (account : AccountInfo) (sent : Option AccountImages) : Prop :=
  match account.SetAccountId cloud with
  | .error _ => sent = none
  | .ok account =>
    ∃ ret, GetAccountImages cloud fuel RegionMap account ret
      ∧ sent = (match ret.2 with
                | some _ => none
                | none => some ret.1)

/-- The function `GetProfilesImages` as a relation between its inputs and the values it can
return. -/
def GetProfilesImages (cloud : Cloud) (fuel : Nat) (RegionMap : List (String × String))
    (accounts : List AccountInfo) (ret : ProfilesImages × Option Error) : Prop :=
  ∃ sent, List.Forall₂ (GetProfilesImages.worker cloud fuel RegionMap) accounts sent
    ∧ ret.1.Perm sent.reduceOption ∧ ret.2 = none

/-- Lines 65-82 of snapshot.go, the goroutine of one region. The error of
`GetRegionVolumes` is logged and the goroutine goes on to send `info`. -/
def GetAccountSnapshots.worker (cloud : Cloud) (fuel : Nat) (account : AccountInfo)
    (region : String) : Option (Option RegionSnapshots) :=
  let info : RegionSnapshots :=
    { AccountId := account.AccountId, Region := region, Profile := account.Profile,
      Snapshots := [], Volumes := [] }
  match cloud.GetSession account region with
  | .error _ => some none
  | .ok sess =>
    match GetRegionSnapshots (cloud.DescribeSnapshots sess) fuel info info.AccountId with
    | none => none
    | some fetch =>
      match fetch.err with
      | some _ => some none
      | none =>
        let info := fetch.receiver
        let volumes := cloud.GetRegionVolumes sess
        let info := { info with Volumes := volumes.1 }
        match volumes.2 with
        | some _ => some (some info)
        | none => some (some info)

/-- The function `GetAccountSnapshots` as a relation between its inputs and the values it
can return. -/
def GetAccountSnapshots (cloud : Cloud) (fuel : Nat) (RegionMap : List (String × String))
    (account : AccountInfo) (ret : AccountSnapshots × Option Error) : Prop :=
  received (RegionMap.map (fun kv => GetAccountSnapshots.worker cloud fuel account kv.2)) ret.1
    ∧ ret.2 = none

/-- Lines 105-116 of snapshot.go, the goroutine of one account. -/
def GetProfilesSnapshots.worker (cloud : Cloud) (fuel : Nat)
    (RegionMap : List (String × String)) (account : AccountInfo)
    (sent : Option AccountSnapshots) : Prop :=
  match account.SetAccountId cloud with
  | .error _ => sent = none
  | .ok account =>
    ∃ ret, GetAccountSnapshots cloud fuel RegionMap account ret
      ∧ sent = (match ret.2 with
                | some _ => none
                | none => some ret.1)

/-- The function `GetProfilesSnapshots` as a relation between its inputs and the values it
can return. -/
def GetProfilesSnapshots (cloud : Cloud) (fuel : Nat) (RegionMap : List (String × String))
    (accounts : List AccountInfo) (ret : ProfilesSnapshots × Option Error) : Prop :=
  ∃ sent, List.Forall₂ (GetProfilesSnapshots.worker cloud fuel RegionMap) accounts sent
    ∧ ret.1.Perm sent.reduceOption ∧ ret.2 = none

/-! ### Vocabulary of the aggregation claims -/

/-- The accounts of the roster whose identifier resolves, with the identifier stored. -/
def resolved (cloud : Cloud) (accounts : List AccountInfo) : List AccountInfo :=
  accounts.filterMap (fun account => (account.SetAccountId cloud).toOption)

/-- What the region goroutines `w` of one account send, listed in catalog order. -/
def sentBy {ρ : Type} (w : AccountInfo → String → Option (Option ρ))
    (RegionMap : List (String × String)) (account : AccountInfo) : List ρ :=
  RegionMap.filterMap (fun kv => (w account kv.2).join)

/-- The shape shared by `GetAccountImages` and `GetAccountSnapshots`, over the region
goroutine `w`. -/
def accountRuns {ρ : Type} (w : AccountInfo → String → Option (Option ρ))
    (RegionMap : List (String × String)) (account : AccountInfo)
    (ret : List ρ × Option Error) : Prop :=
  received (RegionMap.map (fun kv => w account kv.2)) ret.1 ∧ ret.2 = none

/-- The shape shared by the account goroutines of both fleets. -/
def accountWorker {ρ : Type} (cloud : Cloud) (w : AccountInfo → String → Option (Option ρ))
    (RegionMap : List (String × String)) (account : AccountInfo)
    (sent : Option (List ρ)) : Prop :=
  match account.SetAccountId cloud with
  | .error _ => sent = none
  | .ok account =>
    ∃ ret, accountRuns w RegionMap account ret
      ∧ sent = (match ret.2 with
                | some _ => none
                | none => some ret.1)

/-- The shape shared by `GetProfilesImages` and `GetProfilesSnapshots`. -/
def profilesRuns {ρ : Type} (cloud : Cloud) (w : AccountInfo → String → Option (Option ρ))
    (RegionMap : List (String × String)) (accounts : List AccountInfo)
    (ret : List (List ρ) × Option Error) : Prop :=
  ∃ sent, List.Forall₂ (accountWorker cloud w RegionMap) accounts sent
    ∧ ret.1.Perm sent.reduceOption ∧ ret.2 = none

/-! ### Concrete fleets -/

/-- An image with identifier `id`. -/
def mkImage (id : String) : Image :=
  { ImageId := id, Description := none, CreationDate := "2020-01-01T00:00:00.000Z", Tags := [] }

/-- Images fleet of the join example: `img-1` in scope `("111", "us-east-1")`. -/
def joinRegion : RegionImages :=
  { Profile := "dev", AccountId := "111", Region := "us-east-1", Images := [mkImage "img-1"] }

/-- The fleet holding `joinRegion` alone. -/
def joinImages : ProfilesImages := [[joinRegion]]

/-- Instances fleet of the join example: two instances of `img-1` in scope
`("111", "us-east-1")`, one in account `"222"`. -/
def joinInstances : ProfilesInstances :=
  [[{ Profile := "dev", AccountId := "111", Region := "us-east-1",
      Instances := [⟨"i-1", "img-1"⟩, ⟨"i-2", "img-1"⟩] }],
   [{ Profile := "prod", AccountId := "222", Region := "us-east-1",
      Instances := [⟨"i-3", "img-1"⟩] }]]

/-- Instances fleet without the scope `("111", "us-east-1")`. -/
def otherInstances : ProfilesInstances :=
  [[{ Profile := "prod", AccountId := "222", Region := "us-east-1",
      Instances := [⟨"i-3", "img-1"⟩] }]]

/-- Instances fleet in which the scope `("111", "us-east-1")` occurs twice. -/
def twiceInstances : ProfilesInstances :=
  [[{ Profile := "dev", AccountId := "111", Region := "us-east-1",
      Instances := [⟨"i-1", "img-1"⟩, ⟨"i-2", "img-1"⟩] }],
   [{ Profile := "dev2", AccountId := "111", Region := "us-east-1",
      Instances := [⟨"i-3", "img-1"⟩] }]]

/-! ### Concrete providers -/

/-- A page of images with the identifiers `ids`. -/
def imagesPage (ids : List String) (token : Option String) : DescribeImagesOutput :=
  { Images := ids.map mkImage, NextToken := token }

/-- Three pages of 10, 10 and 4 images, a token on the first two. -/
def threePages : List DescribeImagesOutput :=
  [imagesPage ["img-00", "img-01", "img-02", "img-03", "img-04", "img-05", "img-06", "img-07", "img-08", "img-09"]
     (some "t1"),
   imagesPage ["img-10", "img-11", "img-12", "img-13", "img-14", "img-15", "img-16", "img-17", "img-18", "img-19"]
     (some "t2"),
   imagesPage ["img-20", "img-21", "img-22", "img-23"] none]

/-- A provider that serves `threePages` by continuation token. -/
def threePagesClient : Client DescribeImagesInput DescribeImagesOutput :=
  fun _ params =>
    if params.NextToken = none then .ok (threePages.getD 0 (imagesPage [] none))
    else if params.NextToken = some "t1" then .ok (threePages.getD 1 (imagesPage [] none))
    else if params.NextToken = some "t2" then .ok (threePages.getD 2 (imagesPage [] none))
    else .error "InvalidNextToken"

/-- A snapshot with identifier `id`. -/
def mkSnapshot (id : String) : Snapshot :=
  { SnapshotId := id, VolumeId := "vol-ffffffff", Description := "" }

/-- Two pages of 2 and 1 snapshots. -/
def twoPages : List DescribeSnapshotsOutput :=
  [{ Snapshots := [mkSnapshot "snap-0", mkSnapshot "snap-1"], NextToken := some "s1" },
   { Snapshots := [mkSnapshot "snap-2"], NextToken := none }]

/-- A provider that serves `twoPages` by call number. -/
def twoPagesClient : Client DescribeSnapshotsInput DescribeSnapshotsOutput :=
  fun n _ =>
    match n with
    | 0 => .ok (twoPages.getD 0 ⟨[], none⟩)
    | 1 => .ok (twoPages.getD 1 ⟨[], none⟩)
    | _ => .error "RequestLimitExceeded"

/-- An empty receiver for the account `"111"` in `"us-east-1"`. -/
def emptyImages : RegionImages :=
  { Profile := "dev", AccountId := "111", Region := "us-east-1", Images := [] }

/-- An empty snapshot receiver for the account `"111"` in `"us-east-1"`. -/
def emptySnapshots : RegionSnapshots :=
  { Profile := "dev", AccountId := "111", Region := "us-east-1", Snapshots := [], Volumes := [] }

/-! ### A concrete cloud -/

/-- A provider with two accounts that resolve (`dev`, `prod`): sessions fail in
`ap-south-1`, image and snapshot listings fail in `eu-west-1` (for images after a first
page), volume listings fail in `us-west-2`. -/
def demoCloud : Cloud where
  ResolveIdentity := fun a =>
    if a.Profile = "dev" then .ok "111"
    else if a.Profile = "prod" then .ok "222"
    else .error "NoCredentialProviders"
  GetSession := fun a region =>
    if region = "ap-south-1" then .error "OptInRequired"
    else .ok { Profile := a.Profile, Region := region }
  DescribeImages := fun sess _ params =>
    if sess.Region = "eu-west-1" then
      (if params.NextToken = none then .ok (imagesPage ["img-9"] (some "t1"))
       else .error "RequestLimitExceeded")
    else if sess.Profile = "dev" ∧ sess.Region = "us-east-1" then
      (if params.NextToken = none then .ok (imagesPage ["img-1"] (some "t1"))
       else .ok (imagesPage ["img-2"] none))
    else .ok (imagesPage [] none)
  DescribeSnapshots := fun sess _ _ =>
    if sess.Region = "eu-west-1" then .error "RequestLimitExceeded"
    else if sess.Profile = "dev" then
      .ok { Snapshots := [mkSnapshot "snap-1"], NextToken := none }
    else .ok { Snapshots := [], NextToken := none }
  GetRegionVolumes := fun sess =>
    if sess.Region = "us-west-2" then ([], some "UnauthorizedOperation")
    else ([{ VolumeId := "vol-1" }], none)

/-- A region catalog of four entries. -/
def demoCatalog : List (String × String) :=
  [("virginia", "us-east-1"), ("ireland", "eu-west-1"), ("mumbai", "ap-south-1"),
   ("oregon", "us-west-2")]

/-- A roster of three profiles; `ghost` has no credentials. -/
def demoRoster : List AccountInfo :=
  [{ Profile := "dev", AccountId := "" }, { Profile := "prod", AccountId := "" },
   { Profile := "ghost", AccountId := "" }]

/-- The account `dev` with its identifier resolved. -/
def devAccount : AccountInfo := { Profile := "dev", AccountId := "111" }

/-- The images fleet `demoCloud` yields for `demoRoster`, in dispatch order. -/
def demoFleet : ProfilesImages :=
  [[{ Profile := "dev", AccountId := "111", Region := "us-east-1",
      Images := [mkImage "img-1", mkImage "img-2"] },
    { Profile := "dev", AccountId := "111", Region := "us-west-2", Images := [] }],
   [{ Profile := "prod", AccountId := "222", Region := "us-east-1", Images := [] },
    { Profile := "prod", AccountId := "222", Region := "us-west-2", Images := [] }]]

/-- The cloud `demoCloud` with one fault injected: the session of `dev` in `us-east-1`. -/
def faultyCloud : Cloud :=
  { demoCloud with
    GetSession := fun a region =>
      if a.Profile = "dev" ∧ region = "us-east-1" then .error "RequestExpired"
      else demoCloud.GetSession a region }

/-- The images fleet `faultyCloud` yields for `demoRoster`, in dispatch order. -/
def faultyFleet : ProfilesImages :=
  [[{ Profile := "dev", AccountId := "111", Region := "us-west-2", Images := [] }],
   [{ Profile := "prod", AccountId := "222", Region := "us-east-1", Images := [] },
    { Profile := "prod", AccountId := "222", Region := "us-west-2", Images := [] }]]

/-- The region result lost to the injected fault. -/
def lostRegion : RegionImages :=
  { Profile := "dev", AccountId := "111", Region := "us-east-1",
    Images := [mkImage "img-1", mkImage "img-2"] }

/-- The cloud `demoCloud` with every session acquisition failing. -/
def deadCloud : Cloud :=
  { demoCloud with GetSession := fun _ _ => .error "ExpiredToken" }

/-- The snapshots `demoCloud` yields for `dev`, in dispatch order. -/
def demoSnapshots : AccountSnapshots :=
  [{ Profile := "dev", AccountId := "111", Region := "us-east-1",
     Snapshots := [mkSnapshot "snap-1"], Volumes := [{ VolumeId := "vol-1" }] },
   { Profile := "dev", AccountId := "111", Region := "us-west-2",
     Snapshots := [mkSnapshot "snap-1"], Volumes := [] }]

/-- The cloud `demoCloud` with the snapshot listing succeeding everywhere: in `eu-west-1`
only the image listing fails. -/
def imagesOnlyCloud : Cloud :=
  { demoCloud with
    DescribeSnapshots := fun _ _ _ =>
      .ok { Snapshots := [mkSnapshot "snap-1"], NextToken := none } }

/-! ## Theorems -/

theorem scan_foldl (imageId : String) (instances : List Instance) (b : Bool) (n : Nat) :
    instances.foldl
        (fun st inst => if imageId = inst.ImageId then (true, st.2 + 1) else st) (b, n)
      = (b || decide (1 ≤ references imageId instances), n + references imageId instances) := by
  induction instances generalizing b n with
  | nil => simp [references]
  | cons i is ih =>
    rw [List.foldl_cons]
    by_cases h : imageId = i.ImageId
    · rw [if_pos h, ih]
      have h2 : i.ImageId = imageId := h.symm
      simp [references, List.countP_cons, h2]
      omega
    · rw [if_neg h, ih]
      have h2 : ¬ i.ImageId = imageId := fun e => h e.symm
      simp [references, List.countP_cons, h2]

theorem scan_eq (imageId : String) (instances : List Instance) :
    CheckImages.scan imageId instances
      = (decide (1 ≤ references imageId instances), references imageId instances) := by
  unfold CheckImages.scan
  rw [scan_foldl]
  simp

theorem overwrite_foldl (account region : String) (l : List RegionInstances)
    (init : List Instance) :
    l.foldl
        (fun instances regionInstances =>
          if account = regionInstances.AccountId ∧ region = regionInstances.Region then
            regionInstances.Instances
          else instances) init
      = (((l.filter (fun r => decide (r.AccountId = account ∧ r.Region = region))).getLast?.map
          (fun r => r.Instances)).getD init) := by
  induction l generalizing init with
  | nil => simp
  | cons r rs ih =>
    rw [List.foldl_cons, ih]
    by_cases h : account = r.AccountId ∧ region = r.Region
    · have h2 : r.AccountId = account ∧ r.Region = region := ⟨h.1.symm, h.2.symm⟩
      rw [if_pos h, List.filter_cons_of_pos (by simpa using h2), List.getLast?_cons]
      cases hl : (rs.filter (fun r => decide (r.AccountId = account ∧ r.Region = region))).getLast?
        <;> simp
    · have h2 : ¬ (r.AccountId = account ∧ r.Region = region) :=
        fun e => h ⟨e.1.symm, e.2.symm⟩
      rw [if_neg h, List.filter_cons_of_neg (by simpa using h2)]

theorem instances_eq (account region : String) (profilesInstances : ProfilesInstances) :
    CheckImages.instances account region profilesInstances
      = (((inScope account region profilesInstances).getLast?.map
          (fun r => r.Instances)).getD []) := by
  unfold CheckImages.instances inScope
  rw [← overwrite_foldl, List.foldl_flatten]

theorem image_eq (profilesInstances : ProfilesInstances) (regionImages : RegionImages)
    (checkedImages : List ImageInfo) (image : Image) :
    CheckImages.image profilesInstances regionImages checkedImages image
      = checkedImages ++ [checked profilesInstances regionImages image] := by
  unfold CheckImages.image checked
  simp only [scan_eq, instances_eq]
  split
  · rename_i h
    simp at h
    simp [h]
  · rename_i h
    simp at h
    have h0 : references image.ImageId
        (((inScope regionImages.AccountId regionImages.Region profilesInstances).getLast?.map
          (fun r => r.Instances)).getD []) = 0 := by omega
    simp [h0]

theorem images_foldl (profilesInstances : ProfilesInstances) (regionImages : RegionImages)
    (images : List Image) (acc : List ImageInfo) :
    images.foldl (CheckImages.image profilesInstances regionImages) acc
      = acc ++ images.map (checked profilesInstances regionImages) := by
  induction images generalizing acc with
  | nil => simp
  | cons i is ih => rw [List.foldl_cons, ih, image_eq]; simp

theorem regions_foldl (profilesInstances : ProfilesInstances) (l : List RegionImages)
    (acc : List ImageInfo) :
    l.foldl
        (fun checkedImages regionImages =>
          regionImages.Images.foldl (CheckImages.image profilesInstances regionImages)
            checkedImages) acc
      = acc ++ (l.flatMap (fun regionImages =>
          regionImages.Images.map (checked profilesInstances regionImages))) := by
  induction l generalizing acc with
  | nil => simp
  | cons r rs ih => rw [List.foldl_cons, ih, images_foldl]; simp

/-- The correlation loop produces the `checked` record of every image, in traversal order. -/
theorem loop_eq (profilesImages : ProfilesImages) (profilesInstances : ProfilesInstances) :
    CheckImages.loop profilesImages profilesInstances
      = (traversal profilesImages).map (fun p => checked profilesInstances p.1 p.2) := by
  unfold CheckImages.loop traversal
  rw [← List.foldl_flatten, regions_foldl]
  simp [List.map_flatMap, Function.comp_def]

theorem loop_getElem? (profilesImages : ProfilesImages) (profilesInstances : ProfilesInstances)
    (i : Nat) (regionImages : RegionImages) (image : Image)
    (h : (traversal profilesImages)[i]? = some (regionImages, image)) :
    (CheckImages.loop profilesImages profilesInstances)[i]?
      = some (checked profilesInstances regionImages image) := by
  rw [loop_eq, List.getElem?_map, h]
  rfl

theorem filter_length_le_one {α β : Type} [DecidableEq β] (f : α → β) (k : β) (l : List α)
    (h : (l.map f).Nodup) : (l.filter (fun a => decide (f a = k))).length ≤ 1 := by
  induction l with
  | nil => simp
  | cons a as ih =>
    rw [List.map_cons, List.nodup_cons] at h
    by_cases hk : f a = k
    · rw [List.filter_cons_of_pos (by simpa using hk)]
      have hnil : as.filter (fun a => decide (f a = k)) = [] := by
        rw [List.filter_eq_nil_iff]
        intro b hb
        simp only [decide_eq_true_eq]
        intro hbk
        exact h.1 (by rw [hk, ← hbk]; exact List.mem_map_of_mem f hb)
      simp [hnil]
    · rw [List.filter_cons_of_neg (by simpa using hk)]
      exact ih h.2

theorem inScope_length_le_one (account region : String) (profilesInstances : ProfilesInstances)
    (h : (profilesInstances.flatten.map (fun r => (r.AccountId, r.Region))).Nodup) :
    (inScope account region profilesInstances).length ≤ 1 := by
  have := filter_length_le_one (fun r : RegionInstances => (r.AccountId, r.Region))
    (account, region) profilesInstances.flatten h
  unfold inScope
  simpa [Prod.ext_iff] using this

theorem getLast_of_length_le_one (l : List RegionInstances) (h : l.length ≤ 1) :
    ((l.getLast?.map (fun r => r.Instances)).getD []) = l.flatMap (fun r => r.Instances) := by
  match l, h with
  | [], _ => simp
  | [a], _ => simp
  | _ :: _ :: _, h => simp at h

/-- C3: the correlation loop yields one record per image of the primary fleet, in
account-then-region-then-image order; its length is the sum of the lengths of all `Images`
lists, and the i-th record carries the i-th image unchanged with the `Profile`, `AccountId`
and `Region` of the region result holding it. -/
theorem checkImages_one_record_per_image (profilesImages : ProfilesImages)
    (profilesInstances : ProfilesInstances) :
    (CheckImages.loop profilesImages profilesInstances).length
        = (profilesImages.map
            (fun accountImages => (accountImages.map (fun r => r.Images.length)).sum)).sum
      ∧ (CheckImages.loop profilesImages profilesInstances).map
          (fun c => (c.Image, c.Profile, c.AccountId, c.Region))
        = (traversal profilesImages).map
            (fun p => (p.2, p.1.Profile, p.1.AccountId, p.1.Region))
      ∧ (CheckImages (profilesImages, none) (profilesInstances, none)).1
        = CheckImages.loop profilesImages profilesInstances := by
  refine ⟨?_, ?_, rfl⟩
  · rw [loop_eq, List.length_map]
    unfold traversal
    induction profilesImages with
    | nil => rfl
    | cons a as ih =>
      rw [List.flatten_cons, List.flatMap_append, List.length_append, ih, List.map_cons,
        List.sum_cons]
      congr 1
      induction a with
      | nil => rfl
      | cons r rs ihr => simp [List.flatMap_cons, ihr]
  · rw [loop_eq, List.map_map]
    rfl

/-- C1: when every `(AccountId, Region)` scope occurs in at most one region result of the
instances fleet, the record of an image has `Count` equal to the number of instances, among
the region results with exactly the image's `AccountId` and `Region`, whose `ImageId` is the
image's, and `InUse` is true exactly when that number is at least 1. -/
theorem checkImages_counts_within_scope (profilesImages : ProfilesImages)
    (profilesInstances : ProfilesInstances) (i : Nat) (regionImages : RegionImages)
    (image : Image)
    (huniq : (profilesInstances.flatten.map (fun r => (r.AccountId, r.Region))).Nodup)
    (h : (traversal profilesImages)[i]? = some (regionImages, image)) :
    ∃ c, (CheckImages.loop profilesImages profilesInstances)[i]? = some c
      ∧ c.Image = image
      ∧ c.Count = (((profilesInstances.flatten.filter
            (fun r => decide (r.AccountId = regionImages.AccountId
              ∧ r.Region = regionImages.Region))).flatMap
            (fun r => r.Instances)).countP (fun x => decide (x.ImageId = image.ImageId)))
      ∧ (c.InUse = true ↔ 1 ≤ c.Count) := by
  refine ⟨_, loop_getElem? _ _ _ _ _ h, rfl, ?_, ?_⟩
  · have hl := getLast_of_length_le_one _
      (inScope_length_le_one regionImages.AccountId regionImages.Region profilesInstances huniq)
    simp only [checked, hl]
    rfl
  · simp [checked]

/-- C2: an image whose scope matches no region result of the instances fleet gets
`InUse = false` and `Count = 0`, and the correlation returns no error. -/
theorem checkImages_absent_scope (profilesImages : ProfilesImages)
    (profilesInstances : ProfilesInstances) (i : Nat) (regionImages : RegionImages)
    (image : Image)
    (h : (traversal profilesImages)[i]? = some (regionImages, image))
    (habsent : ∀ r ∈ profilesInstances.flatten,
      ¬ (r.AccountId = regionImages.AccountId ∧ r.Region = regionImages.Region)) :
    (∃ c, (CheckImages (profilesImages, none) (profilesInstances, none)).1[i]? = some c
      ∧ c.Image = image ∧ c.InUse = false ∧ c.Count = 0)
    ∧ (CheckImages (profilesImages, none) (profilesInstances, none)).2 = none := by
  refine ⟨⟨_, loop_getElem? _ _ _ _ _ h, rfl, ?_, ?_⟩, rfl⟩
  all_goals
    have hnil : inScope regionImages.AccountId regionImages.Region profilesInstances = [] := by
      unfold inScope
      rw [List.filter_eq_nil_iff]
      intro r hr
      simpa using habsent r hr
    simp [checked, hnil, references]

/-- C10: the instances looked at for an image are those of the last region result, in
account-then-region order, that shares the image's scope; the count is taken over that
region result alone. Every record has `InUse` true exactly when `Count` is at least 1, and
`Count` is at most the length of that region result's `Instances`. -/
theorem checkImages_last_scope_wins (profilesImages : ProfilesImages)
    (profilesInstances : ProfilesInstances) :
    (∀ c ∈ CheckImages.loop profilesImages profilesInstances, (c.InUse = true ↔ 1 ≤ c.Count))
    ∧ ∀ (i : Nat) (regionImages : RegionImages) (image : Image) (last : RegionInstances),
        (traversal profilesImages)[i]? = some (regionImages, image) →
        (inScope regionImages.AccountId regionImages.Region profilesInstances).getLast?
          = some last →
        ∃ c, (CheckImages.loop profilesImages profilesInstances)[i]? = some c
          ∧ c.Image = image
          ∧ c.Count = last.Instances.countP (fun x => decide (x.ImageId = image.ImageId))
          ∧ c.Count ≤ last.Instances.length := by
  constructor
  · intro c hc
    rw [loop_eq, List.mem_map] at hc
    obtain ⟨p, _, rfl⟩ := hc
    simp [checked]
  · intro i regionImages image last h hlast
    refine ⟨_, loop_getElem? _ _ _ _ _ h, rfl, ?_, ?_⟩
    · simp [checked, hlast, references]
    · simp only [checked, hlast, references]
      exact List.countP_le_length _

theorem checkImages_counts_within_scope_witness :
    (joinInstances.flatten.map (fun r => (r.AccountId, r.Region))).Nodup
    ∧ (traversal joinImages)[0]? = some (joinRegion, mkImage "img-1")
    ∧ ∃ c, (CheckImages.loop joinImages joinInstances)[0]? = some c
      ∧ c.Image = mkImage "img-1"
      ∧ c.Count = (((joinInstances.flatten.filter
            (fun r => decide (r.AccountId = joinRegion.AccountId
              ∧ r.Region = joinRegion.Region))).flatMap
            (fun r => r.Instances)).countP
              (fun x => decide (x.ImageId = (mkImage "img-1").ImageId)))
      ∧ (c.InUse = true ↔ 1 ≤ c.Count) :=
  ⟨by decide, by decide,
    checkImages_counts_within_scope joinImages joinInstances 0 joinRegion
      (mkImage "img-1") (by decide) (by decide)⟩

/-- The join example of the specification evaluated: in use, count 2. -/
theorem checkImages_join_example :
    CheckImages.loop joinImages joinInstances
      = [{ Image := mkImage "img-1", InUse := true, Count := 2, AccountId := "111",
           Profile := "dev", Region := "us-east-1" }] := by
  decide

theorem checkImages_absent_scope_witness :
    (traversal joinImages)[0]? = some (joinRegion, mkImage "img-1")
    ∧ (∀ r ∈ otherInstances.flatten,
        ¬ (r.AccountId = joinRegion.AccountId ∧ r.Region = joinRegion.Region))
    ∧ (∃ c, (CheckImages (joinImages, none) (otherInstances, none)).1[0]? = some c
        ∧ c.Image = mkImage "img-1" ∧ c.InUse = false ∧ c.Count = 0)
    ∧ (CheckImages (joinImages, none) (otherInstances, none)).2 = none :=
  ⟨by decide, by decide,
    checkImages_absent_scope joinImages otherInstances 0 joinRegion (mkImage "img-1")
      (by decide) (by decide)⟩

/-- With the scope present twice the count comes from the last region result: 1, not 3. -/
theorem checkImages_twice_example :
    CheckImages.loop joinImages twiceInstances
      = [{ Image := mkImage "img-1", InUse := true, Count := 1, AccountId := "111",
           Profile := "dev", Region := "us-east-1" }] := by
  decide

theorem foldl_concat {α : Type} (l init : List α) :
    l.foldl (fun acc x => acc ++ [x]) init = init ++ l := by
  induction l generalizing init with
  | nil => simp
  | cons a as ih => rw [List.foldl_cons, ih]; simp

theorem imagesLoop_serves (svc : Client DescribeImagesInput DescribeImagesOutput)
    (pages : List DescribeImagesOutput) :
    ∀ (fuel : Nat) (calls : List DescribeImagesInput) (params : DescribeImagesInput)
      (ri : RegionImages),
      ServesImages svc calls.length params pages → pages.length ≤ fuel →
      GetRegionImages.loop svc fuel calls params ri
        = some { receiver := { ri with Images := ri.Images ++ pages.flatMap (fun p => p.Images) },
                 err := none,
                 calls := calls ++ (tokensSent params.NextToken
                            (pages.map (fun p => p.NextToken))).map
                            (fun t => { params with NextToken := t }) } := by
  induction pages with
  | nil => intro _ _ _ _ h; exact absurd h (by simp [ServesImages])
  | cons page rest ih =>
    intro fuel calls params ri h hfuel
    obtain ⟨fuel, rfl⟩ : ∃ f, fuel = f + 1 := ⟨fuel - 1, by simp at hfuel; omega⟩
    cases rest with
    | nil =>
      obtain ⟨hsvc, htok⟩ := h
      simp [GetRegionImages.loop, hsvc, htok, foldl_concat, tokensSent]
    | cons next rest =>
      obtain ⟨hsvc, htok, hrest⟩ := h
      obtain ⟨token, htoken⟩ := Option.isSome_iff_exists.mp htok
      have hlen : (calls ++ [params]).length = calls.length + 1 := by simp
      rw [htoken] at hrest
      rw [← hlen] at hrest
      have := ih fuel (calls ++ [params]) { params with NextToken := some token }
        { ri with Images := ri.Images ++ page.Images } hrest (by simpa using hfuel)
      simp only [GetRegionImages.loop, hsvc, htoken, foldl_concat, this]
      simp [tokensSent, htoken, List.flatMap_cons]

theorem imagesLoop_fails (svc : Client DescribeImagesInput DescribeImagesOutput)
    (err : Error) (pages : List DescribeImagesOutput) :
    ∀ (fuel : Nat) (calls : List DescribeImagesInput) (params : DescribeImagesInput)
      (ri : RegionImages),
      FailsImages svc err calls.length params pages → pages.length + 1 ≤ fuel →
      ∃ out, GetRegionImages.loop svc fuel calls params ri = some out
        ∧ out.err = some err ∧ out.calls.length = calls.length + pages.length + 1
        ∧ out.receiver
            = { ri with Images := ri.Images ++ pages.flatMap (fun p => p.Images) } := by
  induction pages with
  | nil =>
    intro fuel calls params ri h hfuel
    obtain ⟨fuel, rfl⟩ : ∃ f, fuel = f + 1 := ⟨fuel - 1, by simp at hfuel; omega⟩
    simp only [FailsImages] at h
    simp [GetRegionImages.loop, h]
  | cons page rest ih =>
    intro fuel calls params ri h hfuel
    obtain ⟨fuel, rfl⟩ : ∃ f, fuel = f + 1 := ⟨fuel - 1, by simp at hfuel; omega⟩
    obtain ⟨hsvc, htok, hrest⟩ := h
    obtain ⟨token, htoken⟩ := Option.isSome_iff_exists.mp htok
    have hlen : (calls ++ [params]).length = calls.length + 1 := by simp
    rw [htoken, ← hlen] at hrest
    obtain ⟨out, hout, herr, hcalls, hrecv⟩ :=
      ih fuel (calls ++ [params]) { params with NextToken := some token }
        { ri with Images := ri.Images ++ page.Images } hrest (by simpa using hfuel)
    refine ⟨out, ?_, herr, ?_, ?_⟩
    · simp only [GetRegionImages.loop, hsvc, htoken, foldl_concat, hout]
    · rw [hcalls]; simp; omega
    · rw [hrecv]; simp [List.flatMap_cons]

/-- The loop of `GetRegionImages` changes nothing of the receiver but `Images`. -/
theorem imagesLoop_frame (svc : Client DescribeImagesInput DescribeImagesOutput) :
    ∀ (fuel : Nat) (calls : List DescribeImagesInput) (params : DescribeImagesInput)
      (ri : RegionImages) (out : Fetch RegionImages DescribeImagesInput),
      GetRegionImages.loop svc fuel calls params ri = some out →
      out.receiver.Profile = ri.Profile ∧ out.receiver.AccountId = ri.AccountId
        ∧ out.receiver.Region = ri.Region := by
  intro fuel
  induction fuel with
  | zero => intro _ _ _ _ h; simp [GetRegionImages.loop] at h
  | succ fuel ih =>
    intro calls params ri out h
    unfold GetRegionImages.loop at h
    split at h
    · cases h; exact ⟨rfl, rfl, rfl⟩
    · split at h
      · have hrec := ih _ _ _ _ h
        exact hrec
      · cases h; exact ⟨rfl, rfl, rfl⟩

theorem snapshotsLoop_serves (svc : Client DescribeSnapshotsInput DescribeSnapshotsOutput)
    (pages : List DescribeSnapshotsOutput) :
    ∀ (fuel : Nat) (calls : List DescribeSnapshotsInput) (params : DescribeSnapshotsInput)
      (rs : RegionSnapshots),
      ServesSnapshots svc calls.length params pages → pages.length ≤ fuel →
      GetRegionSnapshots.loop svc fuel calls params rs
        = some { receiver := { rs with Snapshots := rs.Snapshots ++ pages.flatMap (fun p => p.Snapshots) },
                 err := none,
                 calls := calls ++ (tokensSent params.NextToken
                            (pages.map (fun p => p.NextToken))).map
                            (fun t => { params with NextToken := t }) } := by
  induction pages with
  | nil => intro _ _ _ _ h; exact absurd h (by simp [ServesSnapshots])
  | cons page rest ih =>
    intro fuel calls params rs h hfuel
    obtain ⟨fuel, rfl⟩ : ∃ f, fuel = f + 1 := ⟨fuel - 1, by simp at hfuel; omega⟩
    cases rest with
    | nil =>
      obtain ⟨hsvc, htok⟩ := h
      simp [GetRegionSnapshots.loop, hsvc, htok, foldl_concat, tokensSent]
    | cons next rest =>
      obtain ⟨hsvc, htok, hrest⟩ := h
      obtain ⟨token, htoken⟩ := Option.isSome_iff_exists.mp htok
      have hlen : (calls ++ [params]).length = calls.length + 1 := by simp
      rw [htoken] at hrest
      rw [← hlen] at hrest
      have := ih fuel (calls ++ [params]) { params with NextToken := some token }
        { rs with Snapshots := rs.Snapshots ++ page.Snapshots } hrest (by simpa using hfuel)
      simp only [GetRegionSnapshots.loop, hsvc, htoken, foldl_concat, this]
      simp [tokensSent, htoken, List.flatMap_cons]

theorem snapshotsLoop_fails (svc : Client DescribeSnapshotsInput DescribeSnapshotsOutput)
    (err : Error) (pages : List DescribeSnapshotsOutput) :
    ∀ (fuel : Nat) (calls : List DescribeSnapshotsInput) (params : DescribeSnapshotsInput)
      (rs : RegionSnapshots),
      FailsSnapshots svc err calls.length params pages → pages.length + 1 ≤ fuel →
      ∃ out, GetRegionSnapshots.loop svc fuel calls params rs = some out
        ∧ out.err = some err ∧ out.calls.length = calls.length + pages.length + 1
        ∧ out.receiver
            = { rs with Snapshots := rs.Snapshots ++ pages.flatMap (fun p => p.Snapshots) } := by
  induction pages with
  | nil =>
    intro fuel calls params rs h hfuel
    obtain ⟨fuel, rfl⟩ : ∃ f, fuel = f + 1 := ⟨fuel - 1, by simp at hfuel; omega⟩
    simp only [FailsSnapshots] at h
    simp [GetRegionSnapshots.loop, h]
  | cons page rest ih =>
    intro fuel calls params rs h hfuel
    obtain ⟨fuel, rfl⟩ : ∃ f, fuel = f + 1 := ⟨fuel - 1, by simp at hfuel; omega⟩
    obtain ⟨hsvc, htok, hrest⟩ := h
    obtain ⟨token, htoken⟩ := Option.isSome_iff_exists.mp htok
    have hlen : (calls ++ [params]).length = calls.length + 1 := by simp
    rw [htoken, ← hlen] at hrest
    obtain ⟨out, hout, herr, hcalls, hrecv⟩ :=
      ih fuel (calls ++ [params]) { params with NextToken := some token }
        { rs with Snapshots := rs.Snapshots ++ page.Snapshots } hrest (by simpa using hfuel)
    refine ⟨out, ?_, herr, ?_, ?_⟩
    · simp only [GetRegionSnapshots.loop, hsvc, htoken, foldl_concat, hout]
    · rw [hcalls]; simp; omega
    · rw [hrecv]; simp [List.flatMap_cons]

/-- The loop of `GetRegionSnapshots` changes nothing of the receiver but `Snapshots`. -/
theorem snapshotsLoop_frame (svc : Client DescribeSnapshotsInput DescribeSnapshotsOutput) :
    ∀ (fuel : Nat) (calls : List DescribeSnapshotsInput) (params : DescribeSnapshotsInput)
      (rs : RegionSnapshots) (out : Fetch RegionSnapshots DescribeSnapshotsInput),
      GetRegionSnapshots.loop svc fuel calls params rs = some out →
      out.receiver.Profile = rs.Profile ∧ out.receiver.AccountId = rs.AccountId
        ∧ out.receiver.Region = rs.Region := by
  intro fuel
  induction fuel with
  | zero => intro _ _ _ _ h; simp [GetRegionSnapshots.loop] at h
  | succ fuel ih =>
    intro calls params rs out h
    unfold GetRegionSnapshots.loop at h
    split at h
    · cases h; exact ⟨rfl, rfl, rfl⟩
    · split at h
      · have hrec := ih _ _ _ _ h
        exact hrec
      · cases h; exact ⟨rfl, rfl, rfl⟩

/-! ### The aggregators -/

theorem GetProfilesImages_iff (cloud : Cloud) (fuel : Nat) (RegionMap : List (String × String))
    (accounts : List AccountInfo) (ret : ProfilesImages × Option Error) :
    GetProfilesImages cloud fuel RegionMap accounts ret
      ↔ profilesRuns cloud (GetAccountImages.worker cloud fuel) RegionMap accounts ret :=
  Iff.rfl

theorem GetProfilesSnapshots_iff (cloud : Cloud) (fuel : Nat)
    (RegionMap : List (String × String)) (accounts : List AccountInfo)
    (ret : ProfilesSnapshots × Option Error) :
    GetProfilesSnapshots cloud fuel RegionMap accounts ret
      ↔ profilesRuns cloud (GetAccountSnapshots.worker cloud fuel) RegionMap accounts ret :=
  Iff.rfl

theorem waitAll_eq_some {α : Type} (l : List (Option α)) (ended : List α) :
    waitAll l = some ended ↔ l = ended.map some := by
  induction l generalizing ended with
  | nil => cases ended <;> simp [waitAll]
  | cons a as ih =>
    cases a with
    | none => cases ended <;> simp [waitAll]
    | some a =>
      cases ended with
      | nil => simp [waitAll]
      | cons e es =>
        simp only [waitAll, Option.map_eq_some', List.map_cons, List.cons.injEq,
          Option.some.injEq]
        constructor
        · rintro ⟨x, hx, h1, h2⟩
          subst h1 h2
          exact ⟨rfl, (ih _).mp hx⟩
        · rintro ⟨h1, h2⟩
          exact ⟨es, (ih _).mpr h2, h1, rfl⟩

theorem received_iff {ρ : Type} (w : String → Option (Option ρ))
    (RegionMap : List (String × String)) (collected : List ρ) :
    received (RegionMap.map (fun kv => w kv.2)) collected
      ↔ (∀ kv ∈ RegionMap, (w kv.2).isSome = true)
        ∧ collected.Perm (RegionMap.filterMap (fun kv => (w kv.2).join)) := by
  induction RegionMap generalizing collected with
  | nil => simp [received, waitAll]
  | cons kv rest ih =>
    constructor
    · rintro ⟨ended, hended, hperm⟩
      rw [waitAll_eq_some] at hended
      cases ended with
      | nil => simp at hended
      | cons e es =>
        simp only [List.map_cons, List.cons.injEq] at hended
        obtain ⟨he, hes⟩ := hended
        have hrest := (ih es.reduceOption).mp ⟨es, (waitAll_eq_some _ _).mpr hes, List.Perm.refl _⟩
        refine ⟨?_, ?_⟩
        · intro kv' hkv'
          rcases List.mem_cons.mp hkv' with rfl | h
          · rw [he]; rfl
          · exact hrest.1 kv' h
        · refine hperm.trans ?_
          rw [List.filterMap_cons, he]
          cases e with
          | none => simpa using hrest.2
          | some r => simpa [List.reduceOption_cons_of_some] using hrest.2
    · rintro ⟨hsome, hperm⟩
      obtain ⟨e, he⟩ := Option.isSome_iff_exists.mp (hsome kv (List.mem_cons_self _ _))
      obtain ⟨es, hes, hp⟩ := (ih (rest.filterMap (fun kv => (w kv.2).join))).mpr
        ⟨fun kv' h => hsome kv' (List.mem_cons_of_mem _ h), List.Perm.refl _⟩
      refine ⟨e :: es, ?_, hperm.trans ?_⟩
      · simp [waitAll, he, hes]
      · rw [List.filterMap_cons, he]
        cases e with
        | none => simpa using hp
        | some r => simpa [List.reduceOption_cons_of_some] using hp

theorem accountWorker_ok {ρ : Type} (cloud : Cloud) (w : AccountInfo → String → Option (Option ρ))
    (RegionMap : List (String × String)) (a a' : AccountInfo) (sent : Option (List ρ))
    (h : a.SetAccountId cloud = .ok a') :
    accountWorker cloud w RegionMap a sent
      ↔ (∀ kv ∈ RegionMap, (w a' kv.2).isSome = true)
        ∧ ∃ ai : List ρ, ai.Perm (sentBy w RegionMap a') ∧ sent = some ai := by
  simp only [accountWorker, h, accountRuns, received_iff]
  constructor
  · rintro ⟨ret, ⟨⟨hsome, hperm⟩, hnil⟩, hsent⟩
    rw [hnil] at hsent
    exact ⟨hsome, ret.1, hperm, hsent⟩
  · rintro ⟨hsome, ai, hperm, hsent⟩
    exact ⟨(ai, none), ⟨⟨hsome, hperm⟩, rfl⟩, hsent⟩

theorem accountWorker_error {ρ : Type} (cloud : Cloud)
    (w : AccountInfo → String → Option (Option ρ)) (RegionMap : List (String × String))
    (a : AccountInfo) (e : Error) (sent : Option (List ρ))
    (h : a.SetAccountId cloud = .error e) :
    accountWorker cloud w RegionMap a sent ↔ sent = none := by
  simp only [accountWorker, h]

theorem resolved_cons_ok (cloud : Cloud) (a a' : AccountInfo) (accounts : List AccountInfo)
    (h : a.SetAccountId cloud = .ok a') :
    resolved cloud (a :: accounts) = a' :: resolved cloud accounts := by
  simp [resolved, List.filterMap_cons, h, Except.toOption]

theorem resolved_cons_error (cloud : Cloud) (a : AccountInfo) (e : Error)
    (accounts : List AccountInfo) (h : a.SetAccountId cloud = .error e) :
    resolved cloud (a :: accounts) = resolved cloud accounts := by
  simp [resolved, List.filterMap_cons, h, Except.toOption]

theorem resolved_append (cloud : Cloud) (l₁ l₂ : List AccountInfo) :
    resolved cloud (l₁ ++ l₂) = resolved cloud l₁ ++ resolved cloud l₂ := by
  simp [resolved, List.filterMap_append]

theorem workers_sound {ρ : Type} (cloud : Cloud) (w : AccountInfo → String → Option (Option ρ))
    (RegionMap : List (String × String)) (accounts : List AccountInfo)
    (sent : List (Option (List ρ)))
    (h : List.Forall₂ (accountWorker cloud w RegionMap) accounts sent) :
    (∀ a' ∈ resolved cloud accounts, ∀ kv ∈ RegionMap, (w a' kv.2).isSome = true)
      ∧ List.Forall₂ (fun ai a' => ai.Perm (sentBy w RegionMap a')) sent.reduceOption
          (resolved cloud accounts) := by
  induction h with
  | nil => simp [resolved]
  | @cons a s accounts sent hw _ ih =>
    cases hid : a.SetAccountId cloud with
    | error e =>
      rw [accountWorker_error cloud w RegionMap a e s hid] at hw
      subst hw
      rw [resolved_cons_error cloud a e accounts hid, List.reduceOption_cons_of_none]
      exact ih
    | ok a' =>
      rw [accountWorker_ok cloud w RegionMap a a' s hid] at hw
      obtain ⟨hsome, ai, hperm, rfl⟩ := hw
      rw [resolved_cons_ok cloud a a' accounts hid, List.reduceOption_cons_of_some]
      refine ⟨?_, List.Forall₂.cons hperm ih.2⟩
      intro b hb
      rcases List.mem_cons.mp hb with rfl | hb
      · exact hsome
      · exact ih.1 b hb

theorem workers_complete {ρ : Type} (cloud : Cloud)
    (w : AccountInfo → String → Option (Option ρ)) (RegionMap : List (String × String))
    (accounts : List AccountInfo)
    (h : ∀ a' ∈ resolved cloud accounts, ∀ kv ∈ RegionMap, (w a' kv.2).isSome = true) :
    ∃ sent, List.Forall₂ (accountWorker cloud w RegionMap) accounts sent
      ∧ sent.reduceOption = (resolved cloud accounts).map (sentBy w RegionMap) := by
  induction accounts with
  | nil => exact ⟨[], List.Forall₂.nil, rfl⟩
  | cons a accounts ih =>
    cases hid : a.SetAccountId cloud with
    | error e =>
      rw [resolved_cons_error cloud a e accounts hid] at h ⊢
      obtain ⟨sent, hsent, hred⟩ := ih h
      exact ⟨none :: sent,
        List.Forall₂.cons ((accountWorker_error cloud w RegionMap a e none hid).mpr rfl) hsent,
        by rw [List.reduceOption_cons_of_none, hred]⟩
    | ok a' =>
      rw [resolved_cons_ok cloud a a' accounts hid] at h ⊢
      obtain ⟨sent, hsent, hred⟩ := ih (fun b hb => h b (List.mem_cons_of_mem _ hb))
      refine ⟨some (sentBy w RegionMap a') :: sent, List.Forall₂.cons ?_ hsent, ?_⟩
      · exact (accountWorker_ok cloud w RegionMap a a' _ hid).mpr
          ⟨h a' (List.mem_cons_self _ _), _, List.Perm.refl _, rfl⟩
      · rw [List.reduceOption_cons_of_some, hred, List.map_cons]

theorem forall₂_perm_members {ρ : Type} (f : AccountInfo → List ρ) (results : List (List ρ))
    (as : List AccountInfo) (h : List.Forall₂ (fun ai a' => ai.Perm (f a')) results as) :
    results.length = as.length ∧ results.flatten.Perm (as.flatMap f)
      ∧ ∀ ai ∈ results, ∃ a' ∈ as, ai.Perm (f a') := by
  induction h with
  | nil => simp
  | @cons ai a' results as hp _ ih =>
    refine ⟨by simp [ih.1], ?_, ?_⟩
    · rw [List.flatten_cons, List.flatMap_cons]
      exact hp.append ih.2.1
    · intro x hx
      rcases List.mem_cons.mp hx with rfl | hx
      · exact ⟨a', List.mem_cons_self _ _, hp⟩
      · obtain ⟨b, hb, hxb⟩ := ih.2.2 x hx
        exact ⟨b, List.mem_cons_of_mem _ hb, hxb⟩

/-- What every return value of a fleet aggregator looks like. -/
theorem profilesRuns_sound {ρ : Type} (cloud : Cloud)
    (w : AccountInfo → String → Option (Option ρ)) (RegionMap : List (String × String))
    (accounts : List AccountInfo) (ret : List (List ρ) × Option Error)
    (h : profilesRuns cloud w RegionMap accounts ret) :
    ret.2 = none
      ∧ ret.1.length = (resolved cloud accounts).length
      ∧ ret.1.flatten.Perm ((resolved cloud accounts).flatMap (sentBy w RegionMap))
      ∧ (∀ ai ∈ ret.1, ∃ a' ∈ resolved cloud accounts, ai.Perm (sentBy w RegionMap a'))
      ∧ (∀ a' ∈ resolved cloud accounts, ∀ kv ∈ RegionMap, (w a' kv.2).isSome = true) := by
  obtain ⟨sent, hsent, hperm, hnil⟩ := h
  obtain ⟨hsome, hall⟩ := workers_sound cloud w RegionMap accounts sent hsent
  obtain ⟨hlen, hflat, hmem⟩ := forall₂_perm_members _ _ _ hall
  refine ⟨hnil, by rw [hperm.length_eq, hlen], hperm.flatten.trans hflat, ?_, hsome⟩
  intro ai hai
  exact hmem ai (hperm.mem_iff.mp hai)

/-- A fleet aggregator returns as soon as every region goroutine it starts ends. -/
theorem profilesRuns_complete {ρ : Type} (cloud : Cloud)
    (w : AccountInfo → String → Option (Option ρ)) (RegionMap : List (String × String))
    (accounts : List AccountInfo)
    (h : ∀ a' ∈ resolved cloud accounts, ∀ kv ∈ RegionMap, (w a' kv.2).isSome = true) :
    profilesRuns cloud w RegionMap accounts
      ((resolved cloud accounts).map (sentBy w RegionMap), none) := by
  obtain ⟨sent, hsent, hred⟩ := workers_complete cloud w RegionMap accounts h
  exact ⟨sent, hsent, by rw [hred], rfl⟩

theorem tokensSent_length (first : Option String) (tokens : List (Option String)) :
    (tokensSent first tokens).length = tokens.length := by
  induction tokens generalizing first with
  | nil => rfl
  | cons t ts ih => simp [tokensSent, ih]

/-- C4: when the provider serves a finite sequence of pages, each but the last with a
continuation token, `GetRegionImages` and `GetRegionSnapshots` make one call per page (the
first without a token, each later one with the token of the page before), return no error,
and leave in the receiver its prior items followed by the items of the pages in
page-then-item order. -/
theorem fetch_appends_every_page
    (svcI : Client DescribeImagesInput DescribeImagesOutput)
    (pagesI : List DescribeImagesOutput) (ri : RegionImages)
    (svcS : Client DescribeSnapshotsInput DescribeSnapshotsOutput)
    (pagesS : List DescribeSnapshotsOutput) (rs : RegionSnapshots)
    (accountId : String) (fuel : Nat)
    (hI : ServesImages svcI 0 { Owners := [accountId], NextToken := none } pagesI)
    (hS : ServesSnapshots svcS 0 { OwnerIds := [accountId], NextToken := none } pagesS)
    (hfuelI : pagesI.length ≤ fuel) (hfuelS : pagesS.length ≤ fuel) :
    (∃ out, GetRegionImages svcI fuel ri accountId = some out
      ∧ out.err = none
      ∧ out.receiver = { ri with Images := ri.Images ++ pagesI.flatMap (fun p => p.Images) }
      ∧ out.calls = (tokensSent none (pagesI.map (fun p => p.NextToken))).map
          (fun t => { Owners := [accountId], NextToken := t })
      ∧ out.calls.length = pagesI.length)
    ∧ (∃ out, GetRegionSnapshots svcS fuel rs accountId = some out
      ∧ out.err = none
      ∧ out.receiver
          = { rs with Snapshots := rs.Snapshots ++ pagesS.flatMap (fun p => p.Snapshots) }
      ∧ out.calls = (tokensSent none (pagesS.map (fun p => p.NextToken))).map
          (fun t => { OwnerIds := [accountId], NextToken := t })
      ∧ out.calls.length = pagesS.length) := by
  constructor
  · refine ⟨_, imagesLoop_serves svcI pagesI fuel [] _ ri hI hfuelI, rfl, rfl, ?_, ?_⟩
    · simp
    · simp [tokensSent_length]
  · refine ⟨_, snapshotsLoop_serves svcS pagesS fuel [] _ rs hS hfuelS, rfl, rfl,
      ?_, ?_⟩
    · simp
    · simp [tokensSent_length]

theorem fetch_appends_every_page_witness :
    ServesImages threePagesClient 0 { Owners := ["111"], NextToken := none } threePages
    ∧ ServesSnapshots twoPagesClient 0 { OwnerIds := ["111"], NextToken := none } twoPages
    ∧ threePages.length ≤ 3 ∧ twoPages.length ≤ 3
    ∧ (∃ out, GetRegionImages threePagesClient 3 emptyImages "111" = some out
      ∧ out.err = none
      ∧ out.receiver = { emptyImages with
          Images := emptyImages.Images ++ threePages.flatMap (fun p => p.Images) }
      ∧ out.calls = (tokensSent none (threePages.map (fun p => p.NextToken))).map
          (fun t => { Owners := ["111"], NextToken := t })
      ∧ out.calls.length = threePages.length)
    ∧ (∃ out, GetRegionSnapshots twoPagesClient 3 emptySnapshots "111" = some out
      ∧ out.err = none
      ∧ out.receiver = { emptySnapshots with
          Snapshots := emptySnapshots.Snapshots ++ twoPages.flatMap (fun p => p.Snapshots) }
      ∧ out.calls = (tokensSent none (twoPages.map (fun p => p.NextToken))).map
          (fun t => { OwnerIds := ["111"], NextToken := t })
      ∧ out.calls.length = twoPages.length) :=
  have hI : ServesImages threePagesClient 0 { Owners := ["111"], NextToken := none }
      threePages := ⟨rfl, rfl, rfl, rfl, rfl, rfl⟩
  have hS : ServesSnapshots twoPagesClient 0 { OwnerIds := ["111"], NextToken := none }
      twoPages := ⟨rfl, rfl, rfl, rfl⟩
  ⟨hI, hS, by decide, by decide,
    fetch_appends_every_page threePagesClient threePages emptyImages twoPagesClient twoPages
      emptySnapshots "111" 3 hI hS (by decide) (by decide)⟩

/-- The pagination example of the specification evaluated: 24 images, in order. -/
theorem fetch_three_pages_example :
    (GetRegionImages threePagesClient 3 emptyImages "111").map
        (fun out => (out.err, out.receiver.Images.map (fun i => i.ImageId), out.calls.length))
      = some (none,
          ["img-00", "img-01", "img-02", "img-03", "img-04", "img-05", "img-06", "img-07", "img-08", "img-09", "img-10", "img-11", "img-12", "img-13", "img-14", "img-15", "img-16", "img-17", "img-18", "img-19", "img-20", "img-21", "img-22", "img-23"],
          3) := by
  rfl

/-! ### Region goroutines -/

theorem imagesWorker_sends (cloud : Cloud) (fuel : Nat) (a : AccountInfo) (region : String)
    (rr : RegionImages) (h : GetAccountImages.worker cloud fuel a region = some (some rr)) :
    rr.Profile = a.Profile ∧ rr.AccountId = a.AccountId ∧ rr.Region = region := by
  unfold GetAccountImages.worker at h
  dsimp only at h
  split at h
  · simp at h
  · split at h
    · simp at h
    · rename_i fetch hfetch
      split at h
      · simp at h
      · simp only [Option.some.injEq] at h
        subst h
        exact imagesLoop_frame _ _ _ _ _ _ hfetch

theorem snapshotsWorker_sends (cloud : Cloud) (fuel : Nat) (a : AccountInfo) (region : String)
    (rr : RegionSnapshots)
    (h : GetAccountSnapshots.worker cloud fuel a region = some (some rr)) :
    rr.Profile = a.Profile ∧ rr.AccountId = a.AccountId ∧ rr.Region = region := by
  unfold GetAccountSnapshots.worker at h
  dsimp only at h
  split at h
  · simp at h
  · split at h
    · simp at h
    · rename_i fetch hfetch
      split at h
      · simp at h
      · have hframe := snapshotsLoop_frame _ _ _ _ _ _ hfetch
        split at h <;>
        · simp only [Option.some.injEq] at h
          subst h
          exact hframe

theorem mem_sentBy {ρ : Type} (w : AccountInfo → String → Option (Option ρ))
    (RegionMap : List (String × String)) (a : AccountInfo) (rr : ρ) :
    rr ∈ sentBy w RegionMap a ↔ ∃ kv ∈ RegionMap, w a kv.2 = some (some rr) := by
  simp only [sentBy, List.mem_filterMap, Option.join_eq_some]

theorem sentBy_length_le {ρ : Type} (w : AccountInfo → String → Option (Option ρ))
    (RegionMap : List (String × String)) (a : AccountInfo) :
    (sentBy w RegionMap a).length ≤ RegionMap.length :=
  List.length_filterMap_le _ _

theorem mem_resolved (cloud : Cloud) (accounts : List AccountInfo) (a' : AccountInfo) :
    a' ∈ resolved cloud accounts
      ↔ ∃ a ∈ accounts, ∃ accountId, cloud.ResolveIdentity a = .ok accountId
          ∧ a' = { a with AccountId := accountId } := by
  simp only [resolved, List.mem_filterMap]
  constructor
  · rintro ⟨a, ha, h⟩
    refine ⟨a, ha, ?_⟩
    unfold AccountInfo.SetAccountId at h
    split at h
    · simp [Except.toOption] at h
    · rename_i accountId hid
      simp only [Except.toOption, Option.some.injEq] at h
      exact ⟨accountId, hid, h.symm⟩
  · rintro ⟨a, ha, accountId, hid, rfl⟩
    exact ⟨a, ha, by simp [AccountInfo.SetAccountId, hid, Except.toOption]⟩

theorem resolved_length_le (cloud : Cloud) (accounts : List AccountInfo) :
    (resolved cloud accounts).length ≤ accounts.length :=
  List.length_filterMap_le _ _

theorem length_flatMap_le {α β : Type} (f : α → List β) (n : Nat) (l : List α)
    (h : ∀ a ∈ l, (f a).length ≤ n) : (l.flatMap f).length ≤ l.length * n := by
  induction l with
  | nil => simp
  | cons a as ih =>
    rw [List.flatMap_cons, List.length_append, List.length_cons, Nat.succ_mul]
    have h1 := h a (List.mem_cons_self _ _)
    have h2 := ih (fun b hb => h b (List.mem_cons_of_mem _ hb))
    omega

theorem accountRuns_mem {ρ : Type} (w : AccountInfo → String → Option (Option ρ))
    (RegionMap : List (String × String)) (a : AccountInfo) (ret : List ρ × Option Error)
    (h : accountRuns w RegionMap a ret) (rr : ρ) :
    rr ∈ ret.1 ↔ ∃ kv ∈ RegionMap, w a kv.2 = some (some rr) := by
  obtain ⟨hrec, _⟩ := h
  rw [received_iff] at hrec
  rw [hrec.2.mem_iff]
  exact mem_sentBy w RegionMap a rr

/-- C6: a fleet returned by `GetProfilesImages` holds at most `|R| * |C|` region results
over all its account results; each carries the profile of an account of the roster with
the identifier resolved for it, and a region of the catalog. -/
theorem fleet_within_roster_times_catalog (cloud : Cloud) (fuel : Nat)
    (RegionMap : List (String × String)) (accounts : List AccountInfo)
    (ret : ProfilesImages × Option Error)
    (h : GetProfilesImages cloud fuel RegionMap accounts ret) :
    (ret.1.map List.length).sum ≤ accounts.length * RegionMap.length
      ∧ ∀ accountImages ∈ ret.1, ∀ rr ∈ accountImages,
          (∃ a ∈ accounts, ∃ accountId, cloud.ResolveIdentity a = .ok accountId
            ∧ rr.Profile = a.Profile ∧ rr.AccountId = accountId)
          ∧ rr.Region ∈ RegionMap.map Prod.snd := by
  obtain ⟨_, _, hflat, hmem, _⟩ := profilesRuns_sound cloud _ RegionMap accounts ret h
  constructor
  · rw [← List.length_flatten, hflat.length_eq]
    calc ((resolved cloud accounts).flatMap
            (sentBy (GetAccountImages.worker cloud fuel) RegionMap)).length
        ≤ (resolved cloud accounts).length * RegionMap.length :=
          length_flatMap_le _ _ _ (fun a _ => sentBy_length_le _ _ a)
      _ ≤ accounts.length * RegionMap.length :=
          Nat.mul_le_mul_right _ (resolved_length_le cloud accounts)
  · intro accountImages hacc rr hrr
    obtain ⟨a', ha', hperm⟩ := hmem accountImages hacc
    obtain ⟨kv, hkv, hw⟩ := (mem_sentBy _ RegionMap a' rr).mp (hperm.mem_iff.mp hrr)
    obtain ⟨hp, hid, hreg⟩ := imagesWorker_sends cloud fuel a' kv.2 rr hw
    obtain ⟨a, ha, accountId, hres, rfl⟩ := (mem_resolved cloud accounts a').mp ha'
    exact ⟨⟨a, ha, accountId, hres, hp, hid⟩, hreg ▸ List.mem_map_of_mem Prod.snd hkv⟩

/-- The run of `GetProfilesImages` on the concrete cloud. -/
theorem demoFleet_run : GetProfilesImages demoCloud 3 demoCatalog demoRoster (demoFleet, none) := by
  have h := profilesRuns_complete demoCloud (GetAccountImages.worker demoCloud 3) demoCatalog
    demoRoster (by decide)
  have e : (resolved demoCloud demoRoster).map
      (sentBy (GetAccountImages.worker demoCloud 3) demoCatalog) = demoFleet := by decide
  rw [e] at h
  exact h

theorem fleet_within_roster_times_catalog_witness :
    GetProfilesImages demoCloud 3 demoCatalog demoRoster (demoFleet, none)
    ∧ (demoFleet.map List.length).sum ≤ demoRoster.length * demoCatalog.length
    ∧ ∀ accountImages ∈ demoFleet, ∀ rr ∈ accountImages,
        (∃ a ∈ demoRoster, ∃ accountId, demoCloud.ResolveIdentity a = .ok accountId
          ∧ rr.Profile = a.Profile ∧ rr.AccountId = accountId)
        ∧ rr.Region ∈ demoCatalog.map Prod.snd :=
  ⟨demoFleet_run,
    fleet_within_roster_times_catalog demoCloud 3 demoCatalog demoRoster (demoFleet, none)
      demoFleet_run⟩

theorem resolved_congr (cloud cloud' : Cloud) (accounts : List AccountInfo)
    (h : ∀ b ∈ accounts, b.SetAccountId cloud' = b.SetAccountId cloud) :
    resolved cloud' accounts = resolved cloud accounts := by
  unfold resolved
  exact List.filterMap_congr (fun b hb => by rw [h b hb])

theorem sentBy_congr {ρ : Type} (w w' : AccountInfo → String → Option (Option ρ))
    (RegionMap : List (String × String)) (a : AccountInfo)
    (h : ∀ kv ∈ RegionMap, w' a kv.2 = w a kv.2) :
    sentBy w' RegionMap a = sentBy w RegionMap a := by
  unfold sentBy
  exact List.filterMap_congr (fun kv hkv => by rw [h kv hkv])

theorem sentBy_append {ρ : Type} (w : AccountInfo → String → Option (Option ρ))
    (l₁ l₂ : List (String × String)) (a : AccountInfo) :
    sentBy w (l₁ ++ l₂) a = sentBy w l₁ a ++ sentBy w l₂ a := by
  simp [sentBy, List.filterMap_append]

theorem perm_insert_inner {α : Type} (x : α) (X Y Z W : List α) :
    (x :: (X ++ (Y ++ (Z ++ W)))).Perm (X ++ (Y ++ x :: (Z ++ W))) := by
  have h := (@List.perm_middle α x (X ++ Y) (Z ++ W)).symm
  simpa [List.append_assoc] using h

/-- C7: when one region goroutine that sent `rr` in the fault-free run is made to fail and
every other goroutine ends as before, the fleet returned holds exactly one region result
fewer, and its region results are those of the fault-free fleet with `rr` removed. -/
theorem single_fault_removes_one_result (cloud cloud' : Cloud) (fuel : Nat)
    (RegionMap : List (String × String)) (accounts : List AccountInfo)
    (pre post : List AccountInfo) (a a' : AccountInfo)
    (rpre rpost : List (String × String)) (kv : String × String) (rr : RegionImages)
    (ret ret' : ProfilesImages × Option Error)
    (haccounts : accounts = pre ++ a :: post)
    (hregions : RegionMap = rpre ++ kv :: rpost)
    (hid : ∀ b ∈ accounts, b.SetAccountId cloud' = b.SetAccountId cloud)
    (hresolve : a.SetAccountId cloud = .ok a')
    (hgood : GetAccountImages.worker cloud fuel a' kv.2 = some (some rr))
    (hbad : GetAccountImages.worker cloud' fuel a' kv.2 = some none)
    (hregion : ∀ kv' ∈ rpre ++ rpost,
      GetAccountImages.worker cloud' fuel a' kv'.2 = GetAccountImages.worker cloud fuel a' kv'.2)
    (haccount : ∀ b' ∈ resolved cloud (pre ++ post), ∀ kv' ∈ RegionMap,
      GetAccountImages.worker cloud' fuel b' kv'.2 = GetAccountImages.worker cloud fuel b' kv'.2)
    (hrun : GetProfilesImages cloud fuel RegionMap accounts ret)
    (hrun' : GetProfilesImages cloud' fuel RegionMap accounts ret') :
    (ret'.1.map List.length).sum + 1 = (ret.1.map List.length).sum
      ∧ ret'.1.flatten.Perm (ret.1.flatten.erase rr) := by
  obtain ⟨_, _, hflat, _, _⟩ := profilesRuns_sound cloud _ RegionMap accounts ret hrun
  obtain ⟨_, _, hflat', _, _⟩ := profilesRuns_sound cloud' _ RegionMap accounts ret' hrun'
  rw [resolved_congr cloud cloud' accounts hid] at hflat'
  have hres : resolved cloud accounts
      = resolved cloud pre ++ a' :: resolved cloud post := by
    rw [haccounts, resolved_append, resolved_cons_ok cloud a a' post hresolve]
  have hpre : ∀ b' ∈ resolved cloud pre,
      sentBy (GetAccountImages.worker cloud' fuel) RegionMap b'
        = sentBy (GetAccountImages.worker cloud fuel) RegionMap b' := fun b' hb' =>
    sentBy_congr _ _ RegionMap b' (haccount b' (by rw [resolved_append]; simp [hb']))
  have hpost : ∀ b' ∈ resolved cloud post,
      sentBy (GetAccountImages.worker cloud' fuel) RegionMap b'
        = sentBy (GetAccountImages.worker cloud fuel) RegionMap b' := fun b' hb' =>
    sentBy_congr _ _ RegionMap b' (haccount b' (by rw [resolved_append]; simp [hb']))
  have hrpre : sentBy (GetAccountImages.worker cloud' fuel) rpre a'
      = sentBy (GetAccountImages.worker cloud fuel) rpre a' :=
    sentBy_congr _ _ rpre a' (fun kv' h => hregion kv' (by simp [h]))
  have hrpost : sentBy (GetAccountImages.worker cloud' fuel) rpost a'
      = sentBy (GetAccountImages.worker cloud fuel) rpost a' :=
    sentBy_congr _ _ rpost a' (fun kv' h => hregion kv' (by simp [h]))
  have hgoodA : sentBy (GetAccountImages.worker cloud fuel) RegionMap a'
      = sentBy (GetAccountImages.worker cloud fuel) rpre a'
        ++ rr :: sentBy (GetAccountImages.worker cloud fuel) rpost a' := by
    rw [hregions, sentBy_append]
    simp [sentBy, List.filterMap_cons, hgood]
  have hbadA : sentBy (GetAccountImages.worker cloud' fuel) RegionMap a'
      = sentBy (GetAccountImages.worker cloud fuel) rpre a'
        ++ sentBy (GetAccountImages.worker cloud fuel) rpost a' := by
    rw [hregions, sentBy_append, hrpre, ← hrpost]
    simp [sentBy, List.filterMap_cons, hbad]
  rw [hres, List.flatMap_append, List.flatMap_cons, hgoodA] at hflat
  rw [hres, List.flatMap_append, List.flatMap_cons, hbadA, List.flatMap_congr hpre,
    List.flatMap_congr hpost] at hflat'
  have hcons : (rr :: ret'.1.flatten).Perm ret.1.flatten := by
    refine ((List.Perm.cons rr hflat').trans ?_).trans hflat.symm
    simp only [List.append_assoc, List.cons_append]
    exact perm_insert_inner rr _ _ _ _
  constructor
  · rw [← List.length_flatten, ← List.length_flatten, ← hcons.length_eq, List.length_cons]
  · exact (List.cons_perm_iff_perm_erase.mp hcons).2

/-- The run of `GetProfilesImages` on the cloud with the injected fault. -/
theorem faultyFleet_run :
    GetProfilesImages faultyCloud 3 demoCatalog demoRoster (faultyFleet, none) := by
  have h := profilesRuns_complete faultyCloud (GetAccountImages.worker faultyCloud 3)
    demoCatalog demoRoster (by decide)
  have e : (resolved faultyCloud demoRoster).map
      (sentBy (GetAccountImages.worker faultyCloud 3) demoCatalog) = faultyFleet := by decide
  rw [e] at h
  exact h

theorem single_fault_removes_one_result_witness :
    (faultyFleet.map List.length).sum + 1 = (demoFleet.map List.length).sum
      ∧ faultyFleet.flatten.Perm (demoFleet.flatten.erase lostRegion) :=
  single_fault_removes_one_result demoCloud faultyCloud 3 demoCatalog demoRoster
    [] [{ Profile := "prod", AccountId := "" }, { Profile := "ghost", AccountId := "" }]
    { Profile := "dev", AccountId := "" } devAccount
    [] [("ireland", "eu-west-1"), ("mumbai", "ap-south-1"), ("oregon", "us-west-2")]
    ("virginia", "us-east-1") lostRegion (demoFleet, none) (faultyFleet, none)
    rfl rfl (fun _ _ => rfl) rfl (by decide) (by decide) (by decide) (by decide)
    demoFleet_run faultyFleet_run

/-! ### Failing fetches -/

theorem imagesWorker_fetch_fails (cloud : Cloud) (fuel : Nat) (a : AccountInfo)
    (region : String) (sess : Session) (fetch : Fetch RegionImages DescribeImagesInput)
    (e : Error) (hs : cloud.GetSession a region = .ok sess)
    (hf : GetRegionImages (cloud.DescribeImages sess) fuel
      { AccountId := a.AccountId, Region := region, Profile := a.Profile, Images := [] }
      a.AccountId = some fetch)
    (he : fetch.err = some e) :
    GetAccountImages.worker cloud fuel a region = some none := by
  simp only [GetAccountImages.worker, hs, hf, he]

theorem snapshotsWorker_fetch_fails (cloud : Cloud) (fuel : Nat) (a : AccountInfo)
    (region : String) (sess : Session) (fetch : Fetch RegionSnapshots DescribeSnapshotsInput)
    (e : Error) (hs : cloud.GetSession a region = .ok sess)
    (hf : GetRegionSnapshots (cloud.DescribeSnapshots sess) fuel
      { AccountId := a.AccountId, Region := region, Profile := a.Profile, Snapshots := [],
        Volumes := [] }
      a.AccountId = some fetch)
    (he : fetch.err = some e) :
    GetAccountSnapshots.worker cloud fuel a region = some none := by
  simp only [GetAccountSnapshots.worker, hs, hf, he]

theorem snapshotsWorker_fetch_succeeds (cloud : Cloud) (fuel : Nat) (a : AccountInfo)
    (region : String) (sess : Session) (fetch : Fetch RegionSnapshots DescribeSnapshotsInput)
    (hs : cloud.GetSession a region = .ok sess)
    (hf : GetRegionSnapshots (cloud.DescribeSnapshots sess) fuel
      { AccountId := a.AccountId, Region := region, Profile := a.Profile, Snapshots := [],
        Volumes := [] }
      a.AccountId = some fetch)
    (he : fetch.err = none) :
    GetAccountSnapshots.worker cloud fuel a region
      = some (some { fetch.receiver with Volumes := (cloud.GetRegionVolumes sess).1 }) := by
  simp only [GetAccountSnapshots.worker, hs, hf, he]
  split <;> rfl

/-- A region whose goroutine sends nothing has no region result in the account result. -/
theorem images_region_absent (cloud : Cloud) (fuel : Nat) (RegionMap : List (String × String))
    (a : AccountInfo) (region : String)
    (hw : GetAccountImages.worker cloud fuel a region = some none)
    (ret : AccountImages × Option Error) (h : GetAccountImages cloud fuel RegionMap a ret) :
    ∀ rr ∈ ret.1, rr.Region ≠ region := by
  intro rr hrr hreg
  obtain ⟨kv, _, hkv⟩ :=
    (accountRuns_mem (GetAccountImages.worker cloud fuel) RegionMap a ret h rr).mp hrr
  have := (imagesWorker_sends cloud fuel a kv.2 rr hkv).2.2
  rw [← this, hreg, hw] at hkv
  simp at hkv

/-- The counterpart of `images_region_absent` for snapshots. -/
theorem snapshots_region_absent (cloud : Cloud) (fuel : Nat)
    (RegionMap : List (String × String)) (a : AccountInfo) (region : String)
    (hw : GetAccountSnapshots.worker cloud fuel a region = some none)
    (ret : AccountSnapshots × Option Error)
    (h : GetAccountSnapshots cloud fuel RegionMap a ret) :
    ∀ rr ∈ ret.1, rr.Region ≠ region := by
  intro rr hrr hreg
  obtain ⟨kv, _, hkv⟩ :=
    (accountRuns_mem (GetAccountSnapshots.worker cloud fuel) RegionMap a ret h rr).mp hrr
  have := (snapshotsWorker_sends cloud fuel a kv.2 rr hkv).2.2
  rw [← this, hreg, hw] at hkv
  simp at hkv

/-- C5: when the provider, after some pages that each carry a token, answers a call with
an error, the fetch (`GetRegionImages`, `GetRegionSnapshots`) returns that error having made
no further call; the region goroutine whose fetch failed then sends nothing, and no return
value of `GetAccountImages` (for a failed image listing) or of `GetAccountSnapshots` (for a
failed snapshot listing) holds a region result for that region. Each listing is taken on
its own: nothing is assumed of the other one. -/
theorem failed_fetch_contributes_nothing (cloud : Cloud) (fuel : Nat)
    (RegionMap : List (String × String)) (account : AccountInfo) (region : String)
    (sess : Session)
    (hsess : cloud.GetSession account region = .ok sess) :
    (∀ (svc : Client DescribeImagesInput DescribeImagesOutput) (err : Error)
        (pages : List DescribeImagesOutput) (accountId : String) (ri : RegionImages),
        FailsImages svc err 0 { Owners := [accountId], NextToken := none } pages →
        pages.length + 1 ≤ fuel →
        ∃ out, GetRegionImages svc fuel ri accountId = some out
          ∧ out.err = some err ∧ out.calls.length = pages.length + 1)
    ∧ (∀ (svc : Client DescribeSnapshotsInput DescribeSnapshotsOutput) (err : Error)
        (pages : List DescribeSnapshotsOutput) (accountId : String) (rs : RegionSnapshots),
        FailsSnapshots svc err 0 { OwnerIds := [accountId], NextToken := none } pages →
        pages.length + 1 ≤ fuel →
        ∃ out, GetRegionSnapshots svc fuel rs accountId = some out
          ∧ out.err = some err ∧ out.calls.length = pages.length + 1)
    ∧ (∀ (err : Error) (pages : List DescribeImagesOutput),
        FailsImages (cloud.DescribeImages sess) err 0
          { Owners := [account.AccountId], NextToken := none } pages →
        pages.length + 1 ≤ fuel →
        GetAccountImages.worker cloud fuel account region = some none
          ∧ ∀ ret, GetAccountImages cloud fuel RegionMap account ret →
              ∀ rr ∈ ret.1, rr.Region ≠ region)
    ∧ (∀ (err : Error) (pages : List DescribeSnapshotsOutput),
        FailsSnapshots (cloud.DescribeSnapshots sess) err 0
          { OwnerIds := [account.AccountId], NextToken := none } pages →
        pages.length + 1 ≤ fuel →
        GetAccountSnapshots.worker cloud fuel account region = some none
          ∧ ∀ ret, GetAccountSnapshots cloud fuel RegionMap account ret →
              ∀ rr ∈ ret.1, rr.Region ≠ region) := by
  have fetchI : ∀ (svc : Client DescribeImagesInput DescribeImagesOutput) (err : Error)
      (pages : List DescribeImagesOutput) (accountId : String) (ri : RegionImages),
      FailsImages svc err 0 { Owners := [accountId], NextToken := none } pages →
      pages.length + 1 ≤ fuel →
      ∃ out, GetRegionImages svc fuel ri accountId = some out
        ∧ out.err = some err ∧ out.calls.length = pages.length + 1 := by
    intro svc err pages accountId ri hI hfuel
    obtain ⟨out, hout, herr, hcalls, _⟩ := imagesLoop_fails svc err pages fuel [] _ ri hI hfuel
    exact ⟨out, hout, herr, by simpa using hcalls⟩
  have fetchS : ∀ (svc : Client DescribeSnapshotsInput DescribeSnapshotsOutput) (err : Error)
      (pages : List DescribeSnapshotsOutput) (accountId : String) (rs : RegionSnapshots),
      FailsSnapshots svc err 0 { OwnerIds := [accountId], NextToken := none } pages →
      pages.length + 1 ≤ fuel →
      ∃ out, GetRegionSnapshots svc fuel rs accountId = some out
        ∧ out.err = some err ∧ out.calls.length = pages.length + 1 := by
    intro svc err pages accountId rs hS hfuel
    obtain ⟨out, hout, herr, hcalls, _⟩ :=
      snapshotsLoop_fails svc err pages fuel [] _ rs hS hfuel
    exact ⟨out, hout, herr, by simpa using hcalls⟩
  refine ⟨fetchI, fetchS, ?_, ?_⟩
  · intro err pages hI hfuel
    obtain ⟨out, hout, herr, _⟩ := fetchI (cloud.DescribeImages sess) err pages
      account.AccountId
      { AccountId := account.AccountId, Region := region, Profile := account.Profile,
        Images := [] } hI hfuel
    have hw := imagesWorker_fetch_fails cloud fuel account region sess out err hsess hout herr
    exact ⟨hw, fun ret h => images_region_absent cloud fuel RegionMap account region hw ret h⟩
  · intro err pages hS hfuel
    obtain ⟨out, hout, herr, _⟩ := fetchS (cloud.DescribeSnapshots sess) err pages
      account.AccountId
      { AccountId := account.AccountId, Region := region, Profile := account.Profile,
        Snapshots := [], Volumes := [] } hS hfuel
    have hw := snapshotsWorker_fetch_fails cloud fuel account region sess out err hsess hout
      herr
    exact ⟨hw, fun ret h =>
      snapshots_region_absent cloud fuel RegionMap account region hw ret h⟩

theorem failed_fetch_contributes_nothing_witness :
    imagesOnlyCloud.GetSession devAccount "eu-west-1"
        = .ok { Profile := "dev", Region := "eu-west-1" }
    ∧ FailsImages (imagesOnlyCloud.DescribeImages { Profile := "dev", Region := "eu-west-1" })
        "RequestLimitExceeded" 0 { Owners := [devAccount.AccountId], NextToken := none }
        [imagesPage ["img-9"] (some "t1")]
    ∧ GetAccountSnapshots.worker imagesOnlyCloud 3 devAccount "eu-west-1"
        = some (some { Profile := "dev", AccountId := "111", Region := "eu-west-1",
                       Snapshots := [mkSnapshot "snap-1"],
                       Volumes := [{ VolumeId := "vol-1" }] })
    ∧ GetAccountImages.worker imagesOnlyCloud 3 devAccount "eu-west-1" = some none
    ∧ (∀ ret, GetAccountImages imagesOnlyCloud 3 demoCatalog devAccount ret →
        ∀ rr ∈ ret.1, rr.Region ≠ "eu-west-1") :=
  have hI : FailsImages
      (imagesOnlyCloud.DescribeImages { Profile := "dev", Region := "eu-west-1" })
      "RequestLimitExceeded" 0 { Owners := [devAccount.AccountId], NextToken := none }
      [imagesPage ["img-9"] (some "t1")] := ⟨rfl, rfl, rfl⟩
  ⟨rfl, hI, by decide,
    (failed_fetch_contributes_nothing imagesOnlyCloud 3 demoCatalog devAccount "eu-west-1"
      { Profile := "dev", Region := "eu-west-1" } rfl).2.2.1 "RequestLimitExceeded"
      [imagesPage ["img-9"] (some "t1")] hI (by decide)⟩

/-- The snapshot half of the failing fetch on `demoCloud`, where the snapshot listing of
`eu-west-1` fails on its first call. -/
theorem failed_snapshot_fetch_example :
    GetAccountSnapshots.worker demoCloud 3 devAccount "eu-west-1" = some none
    ∧ (∀ ret, GetAccountSnapshots demoCloud 3 demoCatalog devAccount ret →
        ∀ rr ∈ ret.1, rr.Region ≠ "eu-west-1") :=
  have hw : GetAccountSnapshots.worker demoCloud 3 devAccount "eu-west-1" = some none := by
    decide
  ⟨hw, fun ret h => snapshots_region_absent demoCloud 3 demoCatalog devAccount "eu-west-1"
    hw ret h⟩

/-! ### Volume listing failures -/

/-- The run of `GetAccountSnapshots` for `dev` on the concrete cloud. -/
theorem demoSnapshots_run :
    GetAccountSnapshots demoCloud 3 demoCatalog devAccount (demoSnapshots, none) := by
  refine ⟨(received_iff (GetAccountSnapshots.worker demoCloud 3 devAccount) demoCatalog
    demoSnapshots).mpr ⟨by decide, ?_⟩, rfl⟩
  have e : demoCatalog.filterMap
      (fun kv => (GetAccountSnapshots.worker demoCloud 3 devAccount kv.2).join)
      = demoSnapshots := by decide
  rw [e]

/-- C9, as stated, fails: in `us-west-2` the session is acquired, the snapshot listing
succeeds and `GetRegionVolumes` returns an error, yet `GetAccountSnapshots` returns a
region result for `us-west-2`. -/
theorem volume_failure_still_contributes :
    demoCloud.GetSession devAccount "us-west-2" = .ok { Profile := "dev", Region := "us-west-2" }
    ∧ (demoCloud.GetRegionVolumes { Profile := "dev", Region := "us-west-2" }).2
        = some "UnauthorizedOperation"
    ∧ ¬ (∀ ret, GetAccountSnapshots demoCloud 3 demoCatalog devAccount ret →
          ∀ rs ∈ ret.1, rs.Region ≠ "us-west-2") := by
  refine ⟨rfl, rfl, ?_⟩
  intro h
  exact h (demoSnapshots, none) demoSnapshots_run
    { Profile := "dev", AccountId := "111", Region := "us-west-2",
      Snapshots := [mkSnapshot "snap-1"], Volumes := [] } (by decide) rfl

/-- C9, amended: once the session is acquired, a failing snapshot listing makes the region
goroutine contribute nothing (no region result of that region is returned), while after a
successful snapshot listing the goroutine sends the region result with the volumes
`GetRegionVolumes` returned, whether or not `GetRegionVolumes` returned an error. -/
theorem snapshot_worker_failure_policy (cloud : Cloud) (fuel : Nat) (account : AccountInfo)
    (region : String) (sess : Session) (fetch : Fetch RegionSnapshots DescribeSnapshotsInput)
    (hsess : cloud.GetSession account region = .ok sess)
    (hfetch : GetRegionSnapshots (cloud.DescribeSnapshots sess) fuel
      { AccountId := account.AccountId, Region := region, Profile := account.Profile,
        Snapshots := [], Volumes := [] }
      account.AccountId = some fetch) :
    (fetch.err ≠ none →
      GetAccountSnapshots.worker cloud fuel account region = some none
      ∧ ∀ RegionMap ret, GetAccountSnapshots cloud fuel RegionMap account ret →
          ∀ rs ∈ ret.1, rs.Region ≠ region)
    ∧ (fetch.err = none →
      GetAccountSnapshots.worker cloud fuel account region
        = some (some { fetch.receiver with Volumes := (cloud.GetRegionVolumes sess).1 })
      ∧ ∀ RegionMap ret, region ∈ RegionMap.map Prod.snd →
          GetAccountSnapshots cloud fuel RegionMap account ret →
          { fetch.receiver with Volumes := (cloud.GetRegionVolumes sess).1 } ∈ ret.1) := by
  constructor
  · intro herr
    obtain ⟨e, he⟩ := Option.ne_none_iff_exists'.mp herr
    have hw := snapshotsWorker_fetch_fails cloud fuel account region sess fetch e hsess hfetch he
    exact ⟨hw, fun RegionMap ret h =>
      snapshots_region_absent cloud fuel RegionMap account region hw ret h⟩
  · intro herr
    have hw := snapshotsWorker_fetch_succeeds cloud fuel account region sess fetch hsess hfetch
      herr
    refine ⟨hw, fun RegionMap ret hreg h => ?_⟩
    obtain ⟨kv, hkv, rfl⟩ := List.mem_map.mp hreg
    exact (accountRuns_mem (GetAccountSnapshots.worker cloud fuel) RegionMap account ret h _).mpr
      ⟨kv, hkv, hw⟩

theorem snapshot_worker_failure_policy_witness :
    demoCloud.GetSession devAccount "us-west-2" = .ok { Profile := "dev", Region := "us-west-2" }
    ∧ GetRegionSnapshots (demoCloud.DescribeSnapshots { Profile := "dev", Region := "us-west-2" })
        3 { AccountId := devAccount.AccountId, Region := "us-west-2",
            Profile := devAccount.Profile, Snapshots := [], Volumes := [] }
        devAccount.AccountId
      = some { receiver := { Profile := "dev", AccountId := "111", Region := "us-west-2",
                             Snapshots := [mkSnapshot "snap-1"], Volumes := [] },
               err := none,
               calls := [{ OwnerIds := ["111"], NextToken := none }] }
    ∧ GetAccountSnapshots.worker demoCloud 3 devAccount "us-west-2"
        = some (some { Profile := "dev", AccountId := "111", Region := "us-west-2",
                       Snapshots := [mkSnapshot "snap-1"], Volumes := [] }) :=
  ⟨rfl, rfl,
    ((snapshot_worker_failure_policy demoCloud 3 devAccount "us-west-2"
      { Profile := "dev", Region := "us-west-2" }
      { receiver := { Profile := "dev", AccountId := "111", Region := "us-west-2",
                      Snapshots := [mkSnapshot "snap-1"], Volumes := [] },
        err := none,
        calls := [{ OwnerIds := ["111"], NextToken := none }] } rfl rfl).2 rfl).1⟩

/-! ### No fatal condition -/

/-- The run of `GetProfilesImages` on the cloud whose sessions all fail. -/
theorem deadFleet_run :
    GetProfilesImages deadCloud 3 demoCatalog demoRoster ([[], []], none) := by
  have h := profilesRuns_complete deadCloud (GetAccountImages.worker deadCloud 3)
    demoCatalog demoRoster (by decide)
  have e : (resolved deadCloud demoRoster).map
      (sentBy (GetAccountImages.worker deadCloud 3) demoCatalog) = [[], []] := by decide
  rw [e] at h
  exact h

/-- C8, as stated, fails: every region goroutine of every account fails, and the fleet
returned still has an entry, empty, for each of the two accounts whose identifier
resolves. -/
theorem failing_roster_keeps_account_entries :
    (∀ a' ∈ resolved deadCloud demoRoster, ∀ kv ∈ demoCatalog,
        GetAccountImages.worker deadCloud 3 a' kv.2 = some none)
    ∧ ¬ (∀ ret, GetProfilesImages deadCloud 3 demoCatalog demoRoster ret → ret.1 = []) := by
  refine ⟨by decide, ?_⟩
  intro h
  exact absurd (h ([[], []], none) deadFleet_run) (by decide)

theorem sentBy_eq_nil {ρ : Type} (w : AccountInfo → String → Option (Option ρ))
    (RegionMap : List (String × String)) (a : AccountInfo)
    (h : ∀ kv ∈ RegionMap, w a kv.2 = some none) : sentBy w RegionMap a = [] := by
  unfold sentBy
  rw [List.filterMap_eq_nil_iff]
  intro kv hkv
  rw [h kv hkv]
  rfl

theorem profilesRuns_all_fail {ρ : Type} (cloud : Cloud)
    (w : AccountInfo → String → Option (Option ρ)) (RegionMap : List (String × String))
    (accounts : List AccountInfo)
    (hfail : ∀ a' ∈ resolved cloud accounts, ∀ kv ∈ RegionMap, w a' kv.2 = some none) :
    (∃ ret, profilesRuns cloud w RegionMap accounts ret)
      ∧ ∀ ret, profilesRuns cloud w RegionMap accounts ret →
          ret = (List.replicate (resolved cloud accounts).length [], none) := by
  constructor
  · exact ⟨_, profilesRuns_complete cloud w RegionMap accounts
      (fun a' ha' kv hkv => by rw [hfail a' ha' kv hkv]; rfl)⟩
  · intro ret h
    obtain ⟨hnil, hlen, _, hmem, _⟩ := profilesRuns_sound cloud w RegionMap accounts ret h
    refine Prod.ext ?_ hnil
    refine List.eq_replicate_iff.mpr ⟨hlen, fun ai hai => ?_⟩
    obtain ⟨a', ha', hperm⟩ := hmem ai hai
    rw [sentBy_eq_nil w RegionMap a' (hfail a' ha')] at hperm
    exact hperm.eq_nil

/-- C8, amended: the four aggregators return a nil error whenever they return, and the
fleet aggregators return as soon as every region goroutine ends; when every region
goroutine of every account fails, the fleet returned holds no region result: it consists
of one empty account result for each account whose identifier resolved. -/
theorem no_fatal_condition (cloud : Cloud) (fuel : Nat) (RegionMap : List (String × String))
    (accounts : List AccountInfo) :
    ((∀ ret, GetProfilesImages cloud fuel RegionMap accounts ret → ret.2 = none)
      ∧ (∀ ret, GetProfilesSnapshots cloud fuel RegionMap accounts ret → ret.2 = none)
      ∧ (∀ a ret, GetAccountImages cloud fuel RegionMap a ret → ret.2 = none)
      ∧ (∀ a ret, GetAccountSnapshots cloud fuel RegionMap a ret → ret.2 = none))
    ∧ ((∀ a' ∈ resolved cloud accounts, ∀ kv ∈ RegionMap,
          (GetAccountImages.worker cloud fuel a' kv.2).isSome = true) →
        ∃ fleet, GetProfilesImages cloud fuel RegionMap accounts (fleet, none))
    ∧ ((∀ a' ∈ resolved cloud accounts, ∀ kv ∈ RegionMap,
          (GetAccountSnapshots.worker cloud fuel a' kv.2).isSome = true) →
        ∃ fleet, GetProfilesSnapshots cloud fuel RegionMap accounts (fleet, none))
    ∧ ((∀ a' ∈ resolved cloud accounts, ∀ kv ∈ RegionMap,
          GetAccountImages.worker cloud fuel a' kv.2 = some none) →
        (∃ ret, GetProfilesImages cloud fuel RegionMap accounts ret)
        ∧ ∀ ret, GetProfilesImages cloud fuel RegionMap accounts ret →
            ret = (List.replicate (resolved cloud accounts).length [], none))
    ∧ ((∀ a' ∈ resolved cloud accounts, ∀ kv ∈ RegionMap,
          GetAccountSnapshots.worker cloud fuel a' kv.2 = some none) →
        (∃ ret, GetProfilesSnapshots cloud fuel RegionMap accounts ret)
        ∧ ∀ ret, GetProfilesSnapshots cloud fuel RegionMap accounts ret →
            ret = (List.replicate (resolved cloud accounts).length [], none)) := by
  refine ⟨⟨?_, ?_, ?_, ?_⟩, ?_, ?_, ?_, ?_⟩
  · exact fun ret h => (profilesRuns_sound cloud _ RegionMap accounts ret h).1
  · exact fun ret h => (profilesRuns_sound cloud _ RegionMap accounts ret h).1
  · exact fun _ _ h => h.2
  · exact fun _ _ h => h.2
  · exact fun h => ⟨_, profilesRuns_complete cloud _ RegionMap accounts h⟩
  · exact fun h => ⟨_, profilesRuns_complete cloud _ RegionMap accounts h⟩
  · exact fun h => profilesRuns_all_fail cloud _ RegionMap accounts h
  · exact fun h => profilesRuns_all_fail cloud _ RegionMap accounts h

theorem no_fatal_condition_witness :
    (∃ ret, GetProfilesImages deadCloud 3 demoCatalog demoRoster ret)
    ∧ ∀ ret, GetProfilesImages deadCloud 3 demoCatalog demoRoster ret →
        ret = (List.replicate (resolved deadCloud demoRoster).length [], none) :=
  (no_fatal_condition deadCloud 3 demoCatalog demoRoster).2.2.2.1 (by decide)

theorem checkImages_last_scope_wins_witness :
    ∃ c, (CheckImages.loop joinImages twiceInstances)[0]? = some c
      ∧ c.Image = mkImage "img-1"
      ∧ c.Count = [(⟨"i-3", "img-1"⟩ : Instance)].countP
          (fun x => decide (x.ImageId = (mkImage "img-1").ImageId))
      ∧ c.Count ≤ [(⟨"i-3", "img-1"⟩ : Instance)].length :=
  (checkImages_last_scope_wins joinImages twiceInstances).2 0 joinRegion (mkImage "img-1")
    { Profile := "dev2", AccountId := "111", Region := "us-east-1",
      Instances := [⟨"i-3", "img-1"⟩] } (by decide) (by decide)

end AwsGoTool
